import Mathlib

/-!
# realtime: kernel-backed timers and tickers

A shallow embedding of the two backend engines (`kqueue.go`, `epoll.go`), the
platform glue (`realtime_linux.go`) and the facade (`realtime.go`).

Conventions of the embedding.

* Go maps are finite maps with duplicate-free keys (`GoMap`).
* A Go `func()` value is `Option H`: `none` is the nil func, `some h` a closure `h`.
* `sync.RWMutex` is the boolean `handlersMu` (`true` = held).  A call that needs the
  mutex while it is held never returns; such a call evaluates to `none`.
* Results of kernel calls are arguments of the operations (`Option Nat` = the errno
  returned, `none` for success).  Every kernel call the code issues is appended to the
  ghost field `syscalls`, oldest first.
* Constants of `golang.org/x/sys/unix` are fields of `DarwinUnix` / `LinuxUnix`.
* The diagnostic `logger` prints only and is left out.
* Machine integers are `Nat` / `Int` with explicit wrap-around where it can occur.
-/

namespace Realtime

/-! ## Go maps -/

/-- A Go map: association list without duplicate keys. -/
structure GoMap (K V : Type) where
  entries : List (K × V)
  nodupKeys : (entries.map Prod.fst).Nodup

namespace GoMap

variable {K V : Type} [DecidableEq K]

/-- The literal `map[K]V{}`. -/
def empty : GoMap K V :=
  ⟨[], List.nodup_nil⟩

/-- Keys of the map. -/
def keys (m : GoMap K V) : List K :=
  m.entries.map Prod.fst

/-- Builtin `len(m)`. -/
def len (m : GoMap K V) : Nat :=
  m.entries.length

/-- Lookup: `some v` when `k` is a key. -/
def get? (m : GoMap K V) (k : K) : Option V :=
  (m.entries.find? (fun e => decide (e.1 = k))).map Prod.snd

/-- The `ok` of `_, ok := m[k]`. -/
def contains (m : GoMap K V) (k : K) : Bool :=
  (m.get? k).isSome

/-- Builtin `delete(m, k)`. -/
def delete (m : GoMap K V) (k : K) : GoMap K V :=
  ⟨m.entries.filter (fun e => decide (e.1 ≠ k)),
   ((List.filter_sublist m.entries).map Prod.fst).nodup m.nodupKeys⟩

/-- Assignment `m[k] = v` (replaces an existing entry). -/
def set (m : GoMap K V) (k : K) (v : V) : GoMap K V :=
  ⟨(k, v) :: m.entries.filter (fun e => decide (e.1 ≠ k)),
   List.nodup_cons.mpr
     ⟨by simp [List.mem_map, List.mem_filter],
      ((List.filter_sublist m.entries).map Prod.fst).nodup m.nodupKeys⟩⟩

/-- All entries whose key is in none of `ks`. -/
def without (m : GoMap K V) (ks : List K) : GoMap K V :=
  ⟨m.entries.filter (fun e => decide (e.1 ∉ ks)),
   ((List.filter_sublist m.entries).map Prod.fst).nodup m.nodupKeys⟩

end GoMap

/-- Go `func()` value (`timerHandler`): `none` is nil. -/
abbrev timerHandler (H : Type) := Option H

/-- Index expression `m[k]` on a map of funcs: nil when `k` is absent. -/
def handlerAt {K H : Type} [DecidableEq K] (m : GoMap K (timerHandler H)) (k : K) :
    timerHandler H :=
  (m.get? k).getD none

/-- Result of a kernel call that yields a descriptor: the value, or the errno. -/
inductive SysResult where
  | ok (v : Int)
  | errno (e : Nat)
  deriving DecidableEq, Repr

/-! ## kqueue backend (`kqueue.go`) -/

/-- Constants of `golang.org/x/sys/unix` used by `kqueue.go`. -/
structure DarwinUnix where
  EVFILT_TIMER : Int
  EV_ADD : Nat
  EV_ENABLE : Nat
  EV_ONESHOT : Nat
  EV_DELETE : Nat
  NOTE_NSECONDS : Nat
  NOTE_MACH_CONTINUOUS_TIME : Nat
  deriving DecidableEq, Repr

/-- Values published in `zerrors_darwin_amd64.go` of `golang.org/x/sys/unix`. -/
def darwinUnix : DarwinUnix :=
  { EVFILT_TIMER := -7, EV_ADD := 0x1, EV_ENABLE := 0x4, EV_ONESHOT := 0x10,
    EV_DELETE := 0x2, NOTE_NSECONDS := 0x4, NOTE_MACH_CONTINUOUS_TIME := 0x80 }

/-- Type `unix.Kevent_t` (`Udata` is never used). -/
structure Kevent_t where
  Ident : Nat
  Filter : Int
  Flags : Nat
  Fflags : Nat
  Data : Int
  deriving DecidableEq, Repr

/-- One call `unix.Kevent(fd, changes, []unix.Kevent_t{}, nil)` and the errno it returned. -/
structure KeventCall where
  fd : Int
  changes : List Kevent_t
  err : Option Nat
  deriving DecidableEq, Repr

/-- Errors built by `fmt.Errorf` in `kqueue.go`. -/
inductive KqError where
  | couldNotCreateQueue (errno : Nat)
  | alreadyRegistered (id : Nat)
  | couldNotCreateOneTimeEvent (id : Nat) (errno : Nat)
  | couldNotUpdateTimerEvent (id : Nat) (errno : Nat)
  | couldNotCreatePeriodicEvent (id : Nat) (errno : Nat)
  | couldNotDeleteEvent (id : Nat) (errno : Nat)
  deriving DecidableEq, Repr

/-- Type `kqueue`; `syscalls` is the ghost trace of `unix.Kevent` change calls. -/
structure kqueue (H : Type) where
  fd : Int
  nextID : Nat
  handlers : GoMap Nat (timerHandler H)
  handlersMu : Bool
  syscalls : List KeventCall

/-- Function `newOneShotTimerEvent`. -/
def newOneShotTimerEvent (c : DarwinUnix) (id : Nat) (timer : Int) : Kevent_t :=
  { Ident := id
    Filter := c.EVFILT_TIMER
    Flags := c.EV_ADD ||| c.EV_ENABLE ||| c.EV_ONESHOT
    Fflags := c.NOTE_NSECONDS ||| c.NOTE_MACH_CONTINUOUS_TIME
    Data := timer }

/-- Function `newPeriodicTimerEvent`. -/
def newPeriodicTimerEvent (c : DarwinUnix) (id : Nat) (timer : Int) : Kevent_t :=
  { Ident := id
    Filter := c.EVFILT_TIMER
    Flags := c.EV_ADD ||| c.EV_ENABLE
    Fflags := c.NOTE_NSECONDS ||| c.NOTE_MACH_CONTINUOUS_TIME
    Data := timer }

/-- Function `newDeleteEvent` (the omitted fields are zero). -/
def newDeleteEvent (c : DarwinUnix) (id : Nat) : Kevent_t :=
  { Ident := id
    Filter := c.EVFILT_TIMER
    Flags := c.EV_DELETE
    Fflags := 0
    Data := 0 }

/-- Function `newKqueue`; `r` is the result of `unix.Kqueue()` (descriptor or errno). -/
def newKqueue (H : Type) (r : SysResult) : Except KqError (kqueue H) :=
  match r with
  | .errno e => .error (.couldNotCreateQueue e)
  | .ok fd =>
    .ok { fd := fd, nextID := 0, handlers := GoMap.empty, handlersMu := false, syscalls := [] }

namespace kqueue

variable {H : Type}

/-- Method `eventsLen`. -/
def eventsLen (kq : kqueue H) : Option Nat :=
  if kq.handlersMu then none else some kq.handlers.len

/-- Method `registerTimerEvent`; `kerr` is what `unix.Kevent` returns.
The duplicate branch returns without `Unlock`, so the mutex stays held. -/
def registerTimerEvent (c : DarwinUnix) (kq : kqueue H) (d : Int) (handler : timerHandler H)
    (kerr : Option Nat) : Option ((Nat × Option KqError) × kqueue H) :=
  if kq.handlersMu then none
  else
    let id := (kq.nextID + 1) % 2 ^ 64
    if kq.handlers.contains id then
      some ((0, some (.alreadyRegistered id)), { kq with nextID := id, handlersMu := true })
    else
      let kevent := newOneShotTimerEvent c id d
      let kq1 : kqueue H :=
        { kq with
          nextID := id
          handlers := kq.handlers.set id handler
          syscalls := kq.syscalls ++ [⟨kq.fd, [kevent], kerr⟩] }
      match kerr with
      | some e => some ((0, some (.couldNotCreateOneTimeEvent id e)), kq1)
      | none => some ((id, none), kq1)

/-- Method `resetTimerEvent` (takes no lock, does not look at the registry). -/
def resetTimerEvent (c : DarwinUnix) (kq : kqueue H) (id : Nat) (d : Int)
    (kerr : Option Nat) : Option KqError × kqueue H :=
  let kevent := newOneShotTimerEvent c id d
  let kq1 : kqueue H := { kq with syscalls := kq.syscalls ++ [⟨kq.fd, [kevent], kerr⟩] }
  match kerr with
  | some e => (some (.couldNotUpdateTimerEvent id e), kq1)
  | none => (none, kq1)

/-- Method `registerTickerEvent`. -/
def registerTickerEvent (c : DarwinUnix) (kq : kqueue H) (d : Int) (handler : timerHandler H)
    (kerr : Option Nat) : Option ((Nat × Option KqError) × kqueue H) :=
  if kq.handlersMu then none
  else
    let id := (kq.nextID + 1) % 2 ^ 64
    if kq.handlers.contains id then
      some ((0, some (.alreadyRegistered id)), { kq with nextID := id, handlersMu := true })
    else
      let kevent := newPeriodicTimerEvent c id d
      let kq1 : kqueue H :=
        { kq with
          nextID := id
          handlers := kq.handlers.set id handler
          syscalls := kq.syscalls ++ [⟨kq.fd, [kevent], kerr⟩] }
      match kerr with
      | some e => some ((0, some (.couldNotCreatePeriodicEvent id e)), kq1)
      | none => some ((id, none), kq1)

/-- Method `deleteEvent`. -/
def deleteEvent (c : DarwinUnix) (kq : kqueue H) (id : Nat) (kerr : Option Nat) :
    Option (Option KqError × kqueue H) :=
  if kq.handlersMu then none
  else if !kq.handlers.contains id then some (none, kq)
  else
    let kq1 : kqueue H :=
      { kq with
        handlers := kq.handlers.delete id
        syscalls := kq.syscalls ++ [⟨kq.fd, [newDeleteEvent c id], kerr⟩] }
    match kerr with
    | some e => some (some (.couldNotDeleteEvent id e), kq1)
    | none => some (none, kq1)

/-- Body of the `for i := 0; i < n; i++` loop of `poll` for one event: the registry and
the closures invoked so far (the closure runs while the mutex is held, so it cannot
touch the registry). -/
def dispatchEvent (c : DarwinUnix) (st : GoMap Nat (timerHandler H) × List H) (e : Kevent_t) :
    GoMap Nat (timerHandler H) × List H :=
  let handler := handlerAt st.1 e.Ident
  let invoked := match handler with
    | some h => st.2 ++ [h]
    | none => st.2
  if e.Flags &&& c.EV_ONESHOT ≠ 0 then (st.1.delete e.Ident, invoked) else (st.1, invoked)

/-- Dispatch step of `poll` (lines 145-157): `events` are the `n` ready events of one
`unix.Kevent` wait.  Returns the closures invoked, in order. -/
def dispatch (c : DarwinUnix) (kq : kqueue H) (events : List Kevent_t) :
    Option (List H × kqueue H) :=
  if kq.handlersMu then none
  else
    let r := events.foldl (dispatchEvent c) (kq.handlers, [])
    some (r.2, { kq with handlers := r.1 })

end kqueue

/-! ## epoll backend (`epoll.go`) -/

/-- Constants of `golang.org/x/sys/unix` used by `epoll.go`. -/
structure LinuxUnix where
  EPOLLIN : Nat
  EPOLLONESHOT : Nat
  EPOLL_CTL_ADD : Int
  EPOLL_CTL_DEL : Int
  CLOCK_BOOTTIME : Int
  CLOCK_MONOTONIC : Int
  O_NONBLOCK : Int
  deriving DecidableEq, Repr

/-- Values published in `zerrors_linux.go` / `zerrors_linux_amd64.go` of
`golang.org/x/sys/unix`. -/
def linuxUnix : LinuxUnix :=
  { EPOLLIN := 0x1, EPOLLONESHOT := 0x40000000, EPOLL_CTL_ADD := 0x1, EPOLL_CTL_DEL := 0x2,
    CLOCK_BOOTTIME := 0x7, CLOCK_MONOTONIC := 0x1, O_NONBLOCK := 0x800 }

/-- Type `unix.EpollEvent` (`Events uint32`, `Fd int32`; `Pad` is never used). -/
structure EpollEvent where
  Events : Nat
  Fd : Int
  deriving DecidableEq, Repr

/-- Type `unix.Timespec`. -/
structure Timespec where
  Sec : Int
  Nsec : Int
  deriving DecidableEq, Repr

/-- Type `timerSpec`. -/
structure timerSpec where
  ItInterval : Timespec
  ItValue : Timespec
  deriving DecidableEq, Repr

/-- Kernel calls issued by `epoll.go`, with what the kernel answered. -/
inductive Syscall where
  | timerfd_create (clockId flags : Int) (res : SysResult)
  | timerfd_settime (fd flags : Int) (new : timerSpec) (err : Option Nat)
  | close (fd : Int)
  | epoll_ctl (epfd op fd : Int) (event : Option EpollEvent) (err : Option Nat)
  | read (fd : Int)
  deriving DecidableEq, Repr

/-- Errors built in `epoll.go`. -/
inductive EpError where
  | couldNotCreateEpoll (errno : Nat)
  | timerAlreadyRegistered (tfd : Int)
  | periodicAlreadyRegistered (tfd : Int)
  | couldNotCreateOneTimeEvent (tfd : Int) (errno : Nat)
  | couldNotCreatePeriodicEvent (tfd : Int) (errno : Nat)
  | couldNotDeleteEvent (id : Int) (errno : Nat)
  | notImplemented
  | couldNotCreateTimerFd (errno : Nat)
  | couldNotSetTimer (errno : Nat)
  deriving DecidableEq, Repr

/-- Type `epoll`; `syscalls` is the ghost trace of kernel calls. -/
structure epoll (H : Type) where
  fd : Int
  handlers : GoMap Int (timerHandler H)
  handlersMu : Bool
  syscalls : List Syscall

/-- What the kernel answers during one `createTimer`: the two `timerfd_create` calls
(`CLOCK_BOOTTIME`, then the `CLOCK_MONOTONIC` fallback) and `timerfd_settime`. -/
structure CreateTimerKernel where
  boottime : SysResult
  monotonic : SysResult
  settime : Option Nat
  deriving DecidableEq, Repr

/-- Conversion `int32(x)` of a Go `int`. -/
def toInt32 (x : Int) : Int :=
  (x + 2 ^ 31) % 2 ^ 32 - 2 ^ 31

/-- Function `newEpoll`; `r` is the result of `unix.EpollCreate1(0)`. -/
def newEpoll (H : Type) (r : SysResult) : Except EpError (epoll H) :=
  match r with
  | .errno e => .error (.couldNotCreateEpoll e)
  | .ok fd => .ok { fd := fd, handlers := GoMap.empty, handlersMu := false, syscalls := [] }

/-- Function `timerFdCreate`: `(-1, err)` on failure. -/
def timerFdCreate (r : SysResult) : Int × Option Nat :=
  match r with
  | .errno e => (-1, some e)
  | .ok tmFd => (tmFd, none)

/-- The `unix.Timespec` computed by `createTimer` (lines 132-136) from `d.Nanoseconds()`. -/
def timerValue (d : Int) : Timespec :=
  let val : Timespec := { Sec := 0, Nsec := d }
  if val.Nsec ≥ 1000000000 then
    { Sec := Int.tdiv val.Nsec 1000000000, Nsec := Int.tmod val.Nsec 1000000000 }
  else val

namespace epoll

variable {H : Type}

/-- Method `createTimer`. -/
def createTimer (c : LinuxUnix) (ep : epoll H) (d : Int) (k : CreateTimerKernel) :
    (Int × Option EpError) × epoll H :=
  let r1 := timerFdCreate k.boottime
  let ep1 : epoll H :=
    { ep with
      syscalls := ep.syscalls ++ [.timerfd_create c.CLOCK_BOOTTIME c.O_NONBLOCK k.boottime] }
  let r2 : (Int × Option Nat) × epoll H :=
    match r1.2 with
    | none => (r1, ep1)
    | some _ =>
      (timerFdCreate k.monotonic,
       { ep1 with
         syscalls :=
           ep1.syscalls ++ [.timerfd_create c.CLOCK_MONOTONIC c.O_NONBLOCK k.monotonic] })
  match r2.1.2 with
  | some e => ((0, some (.couldNotCreateTimerFd e)), r2.2)
  | none =>
    let tfd := r2.1.1
    let val := timerValue d
    let spec : timerSpec := { ItInterval := val, ItValue := val }
    let ep3 : epoll H :=
      { r2.2 with syscalls := r2.2.syscalls ++ [.timerfd_settime tfd 0 spec k.settime] }
    match k.settime with
    | some e =>
      ((0, some (.couldNotSetTimer e)), { ep3 with syscalls := ep3.syscalls ++ [.close tfd] })
    | none => ((tfd, none), ep3)

/-- Method `registerTimerEvent`; `ctl` is what `unix.EpollCtl` returns.  The error of
`createTimer` is overwritten unread; the duplicate branch returns without `Unlock`. -/
def registerTimerEvent (c : LinuxUnix) (ep : epoll H) (d : Int) (handler : timerHandler H)
    (k : CreateTimerKernel) (ctl : Option Nat) : Option ((Int × Option EpError) × epoll H) :=
  let r := createTimer c ep d k
  let tfd := r.1.1
  let ep1 := r.2
  if ep1.handlersMu then none
  else if ep1.handlers.contains tfd then
    some ((0, some (.timerAlreadyRegistered tfd)), { ep1 with handlersMu := true })
  else
    let ev : EpollEvent := { Events := c.EPOLLIN ||| c.EPOLLONESHOT, Fd := toInt32 tfd }
    let ep2 : epoll H :=
      { ep1 with
        handlers := ep1.handlers.set tfd handler
        syscalls := ep1.syscalls ++ [.epoll_ctl ep1.fd c.EPOLL_CTL_ADD tfd (some ev) ctl] }
    match ctl with
    | some e => some ((0, some (.couldNotCreateOneTimeEvent tfd e)), ep2)
    | none => some ((tfd, none), ep2)

/-- Method `registerTickerEvent`. -/
def registerTickerEvent (c : LinuxUnix) (ep : epoll H) (d : Int) (handler : timerHandler H)
    (k : CreateTimerKernel) (ctl : Option Nat) : Option ((Int × Option EpError) × epoll H) :=
  let r := createTimer c ep d k
  let tfd := r.1.1
  let ep1 := r.2
  if ep1.handlersMu then none
  else if ep1.handlers.contains tfd then
    some ((0, some (.periodicAlreadyRegistered tfd)), { ep1 with handlersMu := true })
  else
    let ev : EpollEvent := { Events := c.EPOLLIN, Fd := toInt32 tfd }
    let ep2 : epoll H :=
      { ep1 with
        handlers := ep1.handlers.set tfd handler
        syscalls := ep1.syscalls ++ [.epoll_ctl ep1.fd c.EPOLL_CTL_ADD tfd (some ev) ctl] }
    match ctl with
    | some e => some ((0, some (.couldNotCreatePeriodicEvent tfd e)), ep2)
    | none => some ((tfd, none), ep2)

/-- Method `deleteEvent`. -/
def deleteEvent (c : LinuxUnix) (ep : epoll H) (id : Int) (ctl : Option Nat) :
    Option (Option EpError × epoll H) :=
  if ep.handlersMu then none
  else if !ep.handlers.contains id then some (none, ep)
  else
    let ep1 : epoll H :=
      { ep with
        handlers := ep.handlers.delete id
        syscalls := ep.syscalls ++ [.epoll_ctl ep.fd c.EPOLL_CTL_DEL id none ctl] }
    match ctl with
    | some e => some (some (.couldNotDeleteEvent id e), ep1)
    | none => some (none, ep1)

/-- Method `resetTimerEvent`. -/
def resetTimerEvent (ep : epoll H) (_id : Int) (_d : Int) : Option EpError × epoll H :=
  (some .notImplemented, ep)

/-- Body of the `for i := 0; i < n; i++` loop of `poll` for one event: registry, closures
invoked so far, kernel calls so far.  The result of `unix.Read` is ignored. -/
def dispatchEvent (c : LinuxUnix)
    (st : GoMap Int (timerHandler H) × List H × List Syscall) (e : EpollEvent) :
    GoMap Int (timerHandler H) × List H × List Syscall :=
  let handler := handlerAt st.1 e.Fd
  let invoked := match handler with
    | some h => st.2.1 ++ [h]
    | none => st.2.1
  if e.Events &&& c.EPOLLONESHOT ≠ 0 then (st.1.delete e.Fd, invoked, st.2.2)
  else (st.1, invoked, st.2.2 ++ [.read e.Fd])

/-- Dispatch step of `poll` (lines 180-199): `events` are the `n` ready events of one
`unix.EpollWait`.  Returns the closures invoked, in order. -/
def dispatch (c : LinuxUnix) (ep : epoll H) (events : List EpollEvent) :
    Option (List H × epoll H) :=
  if ep.handlersMu then none
  else
    let r := events.foldl (dispatchEvent c) (ep.handlers, [], ep.syscalls)
    some (r.2.1, { ep with handlers := r.1, syscalls := r.2.2 })

end epoll

/-! ## Sequences of engine operations -/

namespace kqueue

variable {H : Type}

/-- One engine operation on the kqueue backend, with the kernel answers it meets. -/
inductive Op (H : Type) where
  | registerTimer (d : Int) (handler : timerHandler H) (kerr : Option Nat)
  | registerTicker (d : Int) (handler : timerHandler H) (kerr : Option Nat)
  | delete (id : Nat) (kerr : Option Nat)
  | dispatch (events : List Kevent_t)

/-- Whether the operation is a registration. -/
def Op.isRegistration : Op H → Bool
  | .registerTimer _ _ _ => true
  | .registerTicker _ _ _ => true
  | .delete _ _ => false
  | .dispatch _ => false

/-- Number of registrations in a sequence of operations. -/
def regCount (ops : List (Op H)) : Nat :=
  (ops.filter Op.isRegistration).length

/-- Runs one operation; the second component collects the handles returned by
registrations, oldest first. -/
def step (c : DarwinUnix) (st : kqueue H × List Nat) (op : Op H) : Option (kqueue H × List Nat) :=
  match op with
  | .registerTimer d handler kerr =>
    (registerTimerEvent c st.1 d handler kerr).map (fun r => (r.2, st.2 ++ [r.1.1]))
  | .registerTicker d handler kerr =>
    (registerTickerEvent c st.1 d handler kerr).map (fun r => (r.2, st.2 ++ [r.1.1]))
  | .delete id kerr => (deleteEvent c st.1 id kerr).map (fun r => (r.2, st.2))
  | .dispatch events => (dispatch c st.1 events).map (fun r => (r.2, st.2))

/-- Runs a sequence of operations, in order. -/
def run (c : DarwinUnix) (st : kqueue H × List Nat) : List (Op H) → Option (kqueue H × List Nat)
  | [] => some st
  | op :: ops => (step c st op).bind (fun st1 => run c st1 ops)

/-- The loop `for i := 0; i < n; i++ { id, _ := registerTimerEvent(d, handler); deleteEvent(id) }`
with every kernel call succeeding. -/
def registerDeleteLoop (c : DarwinUnix) (d : Int) (handler : timerHandler H) :
    Nat → kqueue H → Option (kqueue H)
  | 0, kq => some kq
  | n + 1, kq =>
    (registerTimerEvent c kq d handler none).bind (fun r =>
      (deleteEvent c r.2 r.1.1 none).bind (fun r1 => registerDeleteLoop c d handler n r1.2))

/-- Kernel side of the trace: idents of the timers that are live, a timer being live
from a successful `EV_ADD` change until a successful `EV_DELETE` change. -/
def liveTimers (c : DarwinUnix) (trace : List KeventCall) : List Nat :=
  trace.foldl
    (fun live call =>
      match call.err with
      | some _ => live
      | none =>
        call.changes.foldl
          (fun live e =>
            if e.Flags &&& c.EV_DELETE ≠ 0 then live.filter (fun i => decide (i ≠ e.Ident))
            else if e.Flags &&& c.EV_ADD ≠ 0 then
              (if e.Ident ∈ live then live else live ++ [e.Ident])
            else live)
          live)
    []

end kqueue

namespace epoll

variable {H : Type}

/-- Kernel answers of a `createTimer` in which every call succeeds and `timerfd_create`
returns the descriptor `tfd`. -/
def createOk (tfd : Int) : CreateTimerKernel :=
  { boottime := .ok tfd, monotonic := .ok tfd, settime := none }

/-- The loop `for each tfd { id, _ := registerTimerEvent(d, handler); deleteEvent(id) }`
with every kernel call succeeding; `tfds` are the descriptors `timerfd_create` returns. -/
def registerDeleteLoop (c : LinuxUnix) (d : Int) (handler : timerHandler H) :
    List Int → epoll H → Option (epoll H)
  | [], ep => some ep
  | tfd :: tfds, ep =>
    (registerTimerEvent c ep d handler (createOk tfd) none).bind (fun r =>
      (deleteEvent c r.2 r.1.1 none).bind (fun r1 => registerDeleteLoop c d handler tfds r1.2))

/-- Kernel side of the trace: timer descriptors that are open, a descriptor being open
from the successful `timerfd_create` that returned it until `close`. -/
def liveTimerFds (trace : List Syscall) : List Int :=
  trace.foldl
    (fun live s =>
      match s with
      | .timerfd_create _ _ (.ok tfd) => if tfd ∈ live then live else live ++ [tfd]
      | .close tfd => live.filter (fun i => decide (i ≠ tfd))
      | _ => live)
    []

/-- Kernel side of `epoll_wait` for a ready timer descriptor added with `interest`:
the event types that occurred (`EPOLLIN`) masked by the interest; the input flags of
`epoll_ctl` (`EPOLLONESHOT` among them) are not returned (epoll_ctl(2)). -/
def readyEvent (c : LinuxUnix) (interest : EpollEvent) : EpollEvent :=
  { Events := interest.Events &&& c.EPOLLIN, Fd := interest.Fd }

end epoll

/-! ## Clock and facade (`realtime_linux.go`, `realtime.go`) -/

/-- Result of `unix.ClockGettime(clock, &ts)`. -/
inductive ClockResult where
  | ok (ts : Timespec)
  | errno (e : Nat)
  deriving DecidableEq, Repr

/-- Value passed to `panic`. -/
inductive PanicValue where
  | engine (err : EpError)
  | clock (errno : Nat)
  deriving DecidableEq, Repr

/-- How a facade call ends: it returns, it panics, or it never returns (mutex held). -/
inductive Outcome (α : Type) where
  | ret (a : α)
  | panic (v : PanicValue)
  | blocked
  deriving DecidableEq, Repr

/-- Two's-complement wrap of an integer to `int64`. -/
def wrapInt64 (x : Int) : Int :=
  (x + 2 ^ 63) % 2 ^ 64 - 2 ^ 63

/-- Conversion `uint64(x)` of an `int64`. -/
def toUint64 (x : Int) : Nat :=
  (x % 2 ^ 64).toNat

/-- Function `nanotime` of `realtime_linux.go`: `uint64(ts.Sec*1e9 + ts.Nsec)`. -/
def nanotime (r : ClockResult) : Outcome Nat :=
  match r with
  | .errno e => .panic (.clock e)
  | .ok ts => .ret (toUint64 (wrapInt64 (wrapInt64 (ts.Sec * 1000000000) + ts.Nsec)))

/-- Type `Time`. -/
structure Time where
  ns : Int
  deriving DecidableEq, Repr

/-- Function `Now`: `Time{ns: time.Duration(nanotime())}`. -/
def Now (r : ClockResult) : Outcome Time :=
  match nanotime r with
  | .ret n => .ret { ns := wrapInt64 (n : Int) }
  | .panic v => .panic v
  | .blocked => .blocked

/-- Method `Time.Sub`. -/
def Time.Sub (t u : Time) : Int :=
  wrapInt64 (t.ns - u.ns)

/-- Function `Since`: `Now().ns - u.ns`. -/
def Since (r : ClockResult) (u : Time) : Outcome Int :=
  match Now r with
  | .ret t => .ret (wrapInt64 (t.ns - u.ns))
  | .panic v => .panic v
  | .blocked => .blocked

/-- A buffered channel seen from the sender: capacity and buffered values, oldest first. -/
structure Chan (α : Type) where
  cap : Nat
  buf : List α
  deriving DecidableEq, Repr

/-- The expression `make(chan α, n)`. -/
def makeChan (α : Type) (n : Nat) : Chan α :=
  { cap := n, buf := [] }

/-- The statement `select { case ch <- v: default: }`; a nil channel (`none`) is never
ready. -/
def selectSend {α : Type} (ch : Option (Chan α)) (v : α) : Option (Chan α) :=
  match ch with
  | none => none
  | some c => if c.buf.length < c.cap then some { c with buf := c.buf ++ [v] } else some c

/-- Closures the facade hands to the engine: `deliver` is
`func() { select { case t.C <- Now(): default: } }`, `spawn f` is
`func() { if f != nil { go f() } }`. -/
inductive Closure where
  | deliver
  | spawn (f : Option Nat)
  deriving DecidableEq, Repr

/-- Running the closure `deliver` on the channel `t.C`; `r` is the clock read by `Now()`. -/
def deliver (r : ClockResult) (ch : Option (Chan Time)) : Outcome (Option (Chan Time)) :=
  match Now r with
  | .ret now => .ret (selectSend ch now)
  | .panic v => .panic v
  | .blocked => .blocked

/-- Type `Timer`. -/
structure Timer where
  C : Option (Chan Time)
  stopped : Bool
  id : Int
  deriving DecidableEq, Repr

/-- Type `Ticker`. -/
structure Ticker where
  C : Option (Chan Time)
  id : Int
  deriving DecidableEq, Repr

/-- Function `startTimer` of `realtime_linux.go`; `ep` is the package variable. -/
def startTimer (c : LinuxUnix) (ep : epoll Closure) (d : Int) (handler : timerHandler Closure)
    (k : CreateTimerKernel) (ctl : Option Nat) : Outcome (Int × epoll Closure) :=
  match ep.registerTimerEvent c d handler k ctl with
  | none => .blocked
  | some ((_, some err), _) => .panic (.engine err)
  | some ((fd, none), ep1) => .ret (fd, ep1)

/-- Function `stopTimer` of `realtime_linux.go`. -/
def stopTimer (c : LinuxUnix) (ep : epoll Closure) (id : Int) (ctl : Option Nat) :
    Outcome (epoll Closure) :=
  match ep.deleteEvent c id ctl with
  | none => .blocked
  | some (some err, _) => .panic (.engine err)
  | some (none, ep1) => .ret ep1

/-- Function `resetTimer` of `realtime_linux.go`. -/
def resetTimer (ep : epoll Closure) (id : Int) (d : Int) : Outcome (epoll Closure) :=
  match ep.resetTimerEvent id d with
  | (some err, _) => .panic (.engine err)
  | (none, ep1) => .ret ep1

/-- Function `startTicker` of `realtime_linux.go`. -/
def startTicker (c : LinuxUnix) (ep : epoll Closure) (d : Int) (handler : timerHandler Closure)
    (k : CreateTimerKernel) (ctl : Option Nat) : Outcome (Int × epoll Closure) :=
  match ep.registerTickerEvent c d handler k ctl with
  | none => .blocked
  | some ((_, some err), _) => .panic (.engine err)
  | some ((fd, none), ep1) => .ret (fd, ep1)

/-- Function `stopTicker` of `realtime_linux.go`. -/
def stopTicker (c : LinuxUnix) (ep : epoll Closure) (id : Int) (ctl : Option Nat) :
    Outcome (epoll Closure) :=
  match ep.deleteEvent c id ctl with
  | none => .blocked
  | some (some err, _) => .panic (.engine err)
  | some (none, ep1) => .ret ep1

/-- Method `Timer.startTimer`. -/
def Timer.startTimer (c : LinuxUnix) (t : Timer) (ep : epoll Closure) (d : Int)
    (k : CreateTimerKernel) (ctl : Option Nat) : Outcome (Timer × epoll Closure) :=
  let t1 : Timer := { t with stopped := false }
  match Realtime.startTimer c ep d (some .deliver) k ctl with
  | .ret (fd, ep1) => .ret ({ t1 with id := fd }, ep1)
  | .panic v => .panic v
  | .blocked => .blocked

/-- Function `NewTimer`. -/
def NewTimer (c : LinuxUnix) (ep : epoll Closure) (d : Int) (k : CreateTimerKernel)
    (ctl : Option Nat) : Outcome (Timer × epoll Closure) :=
  let ch := makeChan Time 1
  let t : Timer := { C := some ch, stopped := false, id := 0 }
  t.startTimer c ep d k ctl

/-- Method `Timer.Stop`; `ctl` is what `unix.EpollCtl` returns if it is called. -/
def Timer.Stop (c : LinuxUnix) (t : Timer) (ep : epoll Closure) (ctl : Option Nat) :
    Outcome (Bool × Timer × epoll Closure) :=
  if t.stopped then .ret (true, t, ep)
  else
    match stopTimer c ep t.id ctl with
    | .ret ep1 => .ret (!t.stopped, t, ep1)
    | .panic v => .panic v
    | .blocked => .blocked

/-- Method `Timer.Reset`. -/
def Timer.Reset (t : Timer) (ep : epoll Closure) (d : Int) :
    Outcome (Bool × Timer × epoll Closure) :=
  match resetTimer ep t.id d with
  | .ret ep1 => .ret (true, t, ep1)
  | .panic v => .panic v
  | .blocked => .blocked

/-- Function `NewTicker`. -/
def NewTicker (c : LinuxUnix) (ep : epoll Closure) (d : Int) (k : CreateTimerKernel)
    (ctl : Option Nat) : Outcome (Ticker × epoll Closure) :=
  let ch := makeChan Time 1
  let t : Ticker := { C := some ch, id := 0 }
  match startTicker c ep d (some .deliver) k ctl with
  | .ret (fd, ep1) => .ret ({ t with id := fd }, ep1)
  | .panic v => .panic v
  | .blocked => .blocked

/-- Method `Ticker.Stop`. -/
def Ticker.Stop (c : LinuxUnix) (t : Ticker) (ep : epoll Closure) (ctl : Option Nat) :
    Outcome (epoll Closure) :=
  stopTicker c ep t.id ctl

/-! ## Handles a dispatch step removes -/

/-- Idents of the ready events that carry `EV_ONESHOT`, in batch order. -/
def kqueue.oneShotIdents (c : DarwinUnix) (events : List Kevent_t) : List Nat :=
  (events.filter (fun e => decide (e.Flags &&& c.EV_ONESHOT ≠ 0))).map Kevent_t.Ident

/-- Descriptors of the ready events that carry `EPOLLONESHOT`, in batch order. -/
def epoll.oneShotFds (c : LinuxUnix) (events : List EpollEvent) : List Int :=
  (events.filter (fun e => decide (e.Events &&& c.EPOLLONESHOT ≠ 0))).map EpollEvent.Fd

/-! ## Sample states -/

/-- A kqueue backend holding one one-shot registration (handle 1, closure 7). -/
def kqueue.sample : kqueue Nat :=
  { fd := 3
    nextID := 1
    handlers := GoMap.empty.set 1 (some 7)
    handlersMu := false
    syscalls := [⟨3, [newOneShotTimerEvent darwinUnix 1 1000000], none⟩] }

/-- An epoll backend holding one one-shot registration (descriptor 5, closure 7). -/
def epoll.sample : epoll Nat :=
  { fd := 3
    handlers := GoMap.empty.set 5 (some 7)
    handlersMu := false
    syscalls :=
      [.timerfd_create linuxUnix.CLOCK_BOOTTIME linuxUnix.O_NONBLOCK (.ok 5),
       .timerfd_settime 5 0 ⟨timerValue 1000000, timerValue 1000000⟩ none,
       .epoll_ctl 3 linuxUnix.EPOLL_CTL_ADD 5
         (some ⟨linuxUnix.EPOLLIN ||| linuxUnix.EPOLLONESHOT, 5⟩) none] }

/-! ## Firing sequences and clock readings -/

/-- Successive runs of the closure `deliver` on one channel with no receive in between;
the list holds the clock result each run reads. -/
def deliverAll (ch : Option (Chan Time)) : List ClockResult → Outcome (Option (Chan Time))
  | [] => .ret ch
  | r :: rs =>
    match deliver r ch with
    | .ret ch1 => deliverAll ch1 rs
    | .panic v => .panic v
    | .blocked => .blocked

/-- A kernel clock reading in range: `Sec ≥ 0`, `0 ≤ Nsec < 10^9`, and
`Sec*10^9 + Nsec < 2^63`. -/
def Timespec.inRange (ts : Timespec) : Prop :=
  0 ≤ ts.Sec ∧ 0 ≤ ts.Nsec ∧ ts.Nsec < 1000000000 ∧ ts.Sec * 1000000000 + ts.Nsec < 2 ^ 63

/-- Lexicographic order on `(Sec, Nsec)`. -/
def Timespec.lexLe (a b : Timespec) : Prop :=
  a.Sec < b.Sec ∨ (a.Sec = b.Sec ∧ a.Nsec ≤ b.Nsec)

instance : DecidablePred Timespec.inRange :=
  fun _ => inferInstanceAs (Decidable (_ ∧ _))

instance : DecidableRel Timespec.lexLe :=
  fun _ _ => inferInstanceAs (Decidable (_ ∨ _))

/-! ## The loop of `poll` -/

/-- Constant `eventsLen` of `poll` (`1 << 10`, the same in both backends). -/
def poll.eventsLen : Nat :=
  1 <<< 10

/-- Constant `maxEventsLen` of `poll` (`1 << 15`, the same in both backends). -/
def poll.maxEventsLen : Nat :=
  1 <<< 15

/-- Length of `events` after the last statement of the loop body
(`kqueue.go` lines 159-161, `epoll.go` lines 201-203), `len` being `len(events)`:
`if n == len(events) && n*2 <= maxEventsLen { events = make(..., n*2) }`. -/
def poll.growEvents (len n : Nat) : Nat :=
  if n = len ∧ n * 2 ≤ poll.maxEventsLen then n * 2 else len

/-- What one wait (`unix.Kevent` with an empty change list, `unix.EpollWait`) returns:
`n` ready events written to the front of `events` (here the list of those `n` events),
an error for which `temporaryErr` holds, or any other error. -/
inductive WaitResult (E : Type) where
  | ready (events : List E)
  | temporary (errno : Nat)
  | fatal (errno : Nat)

/-- How one iteration of the loop of `poll` ends: the loop goes on with the backend `s`
and `len(events) = len`; `poll` returns after `onError`; or the iteration never ends
because the mutex is held. -/
inductive PollStep (S : Type) where
  | next (s : S) (len : Nat)
  | returned (s : S) (errno : Nat)
  | blocked

/-- One iteration of the `for` loop of `kqueue.poll` (lines 132-161); `len` is
`len(events)`.  The deferred `unix.Close(kq.fd)` is not part of the kqueue trace. -/
def kqueue.pollIter {H : Type} (c : DarwinUnix) (kq : kqueue H) (len : Nat)
    (w : WaitResult Kevent_t) : PollStep (kqueue H) :=
  match w with
  | .fatal e => .returned kq e
  | .temporary _ => .next kq len
  | .ready events =>
    let n := events.length
    if n = 0 then .next kq len
    else
      match kq.dispatch c events with
      | none => .blocked
      | some (_, kq1) => .next kq1 (poll.growEvents len n)

/-- The loop of `kqueue.poll` run on a finite sequence of wait results. -/
def kqueue.pollRun {H : Type} (c : DarwinUnix) :
    kqueue H → Nat → List (WaitResult Kevent_t) → PollStep (kqueue H)
  | kq, len, [] => .next kq len
  | kq, len, w :: ws =>
    match kqueue.pollIter c kq len w with
    | .next kq1 len1 => kqueue.pollRun c kq1 len1 ws
    | .returned kq1 e => .returned kq1 e
    | .blocked => .blocked

/-- One iteration of the `for` loop of `epoll.poll` (lines 165-203); `len` is
`len(events)`.  On return the deferred `unix.Close(ep.fd)` is issued. -/
def epoll.pollIter {H : Type} (c : LinuxUnix) (ep : epoll H) (len : Nat)
    (w : WaitResult EpollEvent) : PollStep (epoll H) :=
  match w with
  | .fatal e => .returned { ep with syscalls := ep.syscalls ++ [.close ep.fd] } e
  | .temporary _ => .next ep len
  | .ready events =>
    let n := events.length
    if n = 0 then .next ep len
    else
      match ep.dispatch c events with
      | none => .blocked
      | some (_, ep1) => .next ep1 (poll.growEvents len n)

/-- The loop of `epoll.poll` run on a finite sequence of wait results. -/
def epoll.pollRun {H : Type} (c : LinuxUnix) :
    epoll H → Nat → List (WaitResult EpollEvent) → PollStep (epoll H)
  | ep, len, [] => .next ep len
  | ep, len, w :: ws =>
    match epoll.pollIter c ep len w with
    | .next ep1 len1 => epoll.pollRun c ep1 len1 ws
    | .returned ep1 e => .returned ep1 e
    | .blocked => .blocked

/-! ## Theorems -/

namespace GoMap
variable {K V : Type} [DecidableEq K]

omit [DecidableEq K] in
theorem ext_entries {m m1 : GoMap K V} (h : m.entries = m1.entries) : m = m1 := by
  cases m; cases m1; simp_all

theorem filter_ne_of_not_mem (es : List (K × V)) (k : K) (h : k ∉ es.map Prod.fst) :
    es.filter (fun e => decide (e.1 ≠ k)) = es := by
  rw [List.filter_eq_self]
  intro e he
  rw [decide_eq_true_eq]
  intro hk
  exact h (List.mem_map.mpr ⟨e, he, hk⟩)

theorem contains_eq_true_iff (m : GoMap K V) (k : K) : m.contains k = true ↔ k ∈ m.keys := by
  unfold contains get? keys
  rw [Option.isSome_map', List.find?_isSome]
  simp [List.mem_map]

theorem contains_eq_false_iff (m : GoMap K V) (k : K) : m.contains k = false ↔ k ∉ m.keys := by
  rw [← contains_eq_true_iff]; simp

theorem mem_keys_delete (m : GoMap K V) (k x : K) :
    x ∈ (m.delete k).keys ↔ x ∈ m.keys ∧ x ≠ k := by
  simp only [delete, keys, List.mem_map, List.mem_filter, decide_eq_true_eq]
  constructor
  · rintro ⟨e, ⟨he, hne⟩, rfl⟩; exact ⟨⟨e, he, rfl⟩, hne⟩
  · rintro ⟨⟨e, he, rfl⟩, hne⟩; exact ⟨e, ⟨he, hne⟩, rfl⟩

theorem keys_set (m : GoMap K V) (k : K) (v : V) :
    (m.set k v).keys = k :: (m.delete k).keys := rfl

theorem delete_of_not_mem (m : GoMap K V) (k : K) (h : k ∉ m.keys) : m.delete k = m :=
  ext_entries (filter_ne_of_not_mem m.entries k h)

theorem set_entries_of_not_mem (m : GoMap K V) (k : K) (v : V) (h : k ∉ m.keys) :
    (m.set k v).entries = (k, v) :: m.entries := by
  show (k, v) :: m.entries.filter (fun e => decide (e.1 ≠ k)) = (k, v) :: m.entries
  rw [filter_ne_of_not_mem m.entries k h]

theorem len_set_of_not_mem (m : GoMap K V) (k : K) (v : V) (h : k ∉ m.keys) :
    (m.set k v).len = m.len + 1 := by
  simp [len, set_entries_of_not_mem m k v h]

theorem delete_set_of_not_mem (m : GoMap K V) (k : K) (v : V) (h : k ∉ m.keys) :
    (m.set k v).delete k = m := by
  apply ext_entries
  show ((k, v) :: m.entries.filter (fun e => decide (e.1 ≠ k))).filter
      (fun e => decide (e.1 ≠ k)) = m.entries
  rw [filter_ne_of_not_mem m.entries k h, List.filter_cons_of_neg (by simp),
    filter_ne_of_not_mem m.entries k h]

theorem get?_set_self (m : GoMap K V) (k : K) (v : V) : (m.set k v).get? k = some v := by
  simp [get?, set]

theorem length_filter_ne_of_mem (es : List (K × V)) (k : K) (hnd : (es.map Prod.fst).Nodup)
    (h : k ∈ es.map Prod.fst) :
    (es.filter (fun e => decide (e.1 ≠ k))).length + 1 = es.length := by
  induction es with
  | nil => simp at h
  | cons e es ih =>
    rw [List.map_cons, List.nodup_cons] at hnd
    by_cases hk : e.1 = k
    · have hnot : k ∉ es.map Prod.fst := hk ▸ hnd.1
      rw [List.filter_cons_of_neg (by simp [hk]), filter_ne_of_not_mem es k hnot]
      rfl
    · have hmem : k ∈ es.map Prod.fst := by
        rw [List.map_cons, List.mem_cons] at h
        rcases h with h | h
        · exact absurd h.symm hk
        · exact h
      rw [List.filter_cons_of_pos (by simp [hk]), List.length_cons, List.length_cons,
        ih hnd.2 hmem]

theorem len_delete_of_mem (m : GoMap K V) (k : K) (h : k ∈ m.keys) :
    (m.delete k).len + 1 = m.len :=
  length_filter_ne_of_mem m.entries k m.nodupKeys h

theorem foldl_delete_eq_without (ks : List K) (m : GoMap K V) :
    ks.foldl GoMap.delete m = m.without ks := by
  induction ks generalizing m with
  | nil => apply ext_entries; simp [without]
  | cons k ks ih =>
    rw [List.foldl_cons, ih]
    apply ext_entries
    simp only [without, delete, List.filter_filter]
    apply List.filter_congr
    intro e _
    by_cases h1 : e.1 = k <;> by_cases h2 : e.1 ∈ ks <;> simp [h1, h2]

end GoMap

namespace GoMap
variable {K V : Type} [DecidableEq K]

theorem mem_keys_without (m : GoMap K V) (ks : List K) (x : K) :
    x ∈ (m.without ks).keys ↔ x ∈ m.keys ∧ x ∉ ks := by
  simp only [without, keys, List.mem_map, List.mem_filter, decide_eq_true_eq]
  constructor
  · rintro ⟨e, ⟨he, hne⟩, rfl⟩; exact ⟨⟨e, he, rfl⟩, hne⟩
  · rintro ⟨⟨e, he, rfl⟩, hne⟩; exact ⟨e, ⟨he, hne⟩, rfl⟩

theorem get?_without_of_not_mem (m : GoMap K V) (ks : List K) (x : K) (h : x ∉ ks) :
    (m.without ks).get? x = m.get? x := by
  obtain ⟨es, hnd⟩ := m
  simp only [without, get?]
  congr 1
  clear hnd
  induction es with
  | nil => rfl
  | cons e es ih =>
    by_cases hx : e.1 = x
    · have : e.1 ∉ ks := hx ▸ h
      rw [List.filter_cons_of_pos (by simpa using this)]
      simp [List.find?_cons, hx]
    · by_cases hk : e.1 ∈ ks
      · rw [List.filter_cons_of_neg (by simpa using hk), ih]
        simp [List.find?_cons, hx]
      · rw [List.filter_cons_of_pos (by simpa using hk), List.find?_cons_of_neg _ (by simpa using hx),
          List.find?_cons_of_neg _ (by simpa using hx), ih]

theorem len_without (m : GoMap K V) (ks : List K) :
    (m.without ks).len + (m.keys.filter (fun k => decide (k ∈ ks))).length = m.len := by
  obtain ⟨es, hnd⟩ := m
  simp only [without, len, keys]
  clear hnd
  induction es with
  | nil => rfl
  | cons e es ih =>
    by_cases hk : e.1 ∈ ks
    · rw [List.filter_cons_of_neg (by simpa using hk), List.map_cons,
        List.filter_cons_of_pos (by simpa using hk), List.length_cons, List.length_cons]
      omega
    · rw [List.filter_cons_of_pos (by simpa using hk), List.map_cons,
        List.filter_cons_of_neg (by simpa using hk), List.length_cons, List.length_cons]
      omega

end GoMap

/-! ## Dispatch step -/

theorem kqueue.kq_foldl_dispatchEvent_fst {H : Type} (c : DarwinUnix) (events : List Kevent_t)
    (m : GoMap Nat (timerHandler H)) (inv : List H) :
    (events.foldl (kqueue.dispatchEvent c) (m, inv)).1 =
      (kqueue.oneShotIdents c events).foldl GoMap.delete m := by
  induction events generalizing m inv with
  | nil => rfl
  | cons e es ih =>
    rw [List.foldl_cons]
    by_cases hf : e.Flags &&& c.EV_ONESHOT ≠ 0
    · have : kqueue.oneShotIdents c (e :: es) = e.Ident :: kqueue.oneShotIdents c es := by
        simp only [kqueue.oneShotIdents]
        rw [List.filter_cons_of_pos (by simpa using hf), List.map_cons]
      rw [this, List.foldl_cons]
      simp only [kqueue.dispatchEvent, if_pos hf]
      exact ih _ _
    · have : kqueue.oneShotIdents c (e :: es) = kqueue.oneShotIdents c es := by
        simp only [kqueue.oneShotIdents]
        rw [List.filter_cons_of_neg (by simpa using hf)]
      rw [this]
      simp only [kqueue.dispatchEvent, if_neg hf]
      exact ih _ _

/-- Dispatch step of the kqueue backend: the step returns, and the registry afterwards is
the registry before without the idents of the ready events flagged `EV_ONESHOT`; the
counter, the mutex and the kernel trace are untouched. -/
theorem kqueue.kq_dispatch_registry {H : Type} (c : DarwinUnix) (kq : kqueue H)
    (events : List Kevent_t) (hmu : kq.handlersMu = false) :
    ∃ invoked kq1, kq.dispatch c events = some (invoked, kq1) ∧
      kq1.handlers = kq.handlers.without (kqueue.oneShotIdents c events) ∧
      kq1.nextID = kq.nextID ∧ kq1.handlersMu = false ∧ kq1.syscalls = kq.syscalls ∧
      kq1.fd = kq.fd := by
  refine ⟨(events.foldl (kqueue.dispatchEvent c) (kq.handlers, [])).2,
    { kq with handlers := (events.foldl (kqueue.dispatchEvent c) (kq.handlers, [])).1 },
    ?_, ?_, rfl, hmu, rfl, rfl⟩
  · simp only [kqueue.dispatch, hmu, Bool.false_eq_true, if_false]
  · show (events.foldl (kqueue.dispatchEvent c) (kq.handlers, [])).1 = _
    rw [kqueue.kq_foldl_dispatchEvent_fst, GoMap.foldl_delete_eq_without]

/-- Dispatch step of the kqueue backend, entry by entry: a key survives exactly when no
ready event flagged `EV_ONESHOT` names it, surviving entries keep their closure, and the
size drops by the number of keys so named. -/
theorem kqueue.kq_dispatch_entries {H : Type} (c : DarwinUnix) (kq : kqueue H)
    (events : List Kevent_t) (invoked : List H) (kq1 : kqueue H)
    (h : kq.dispatch c events = some (invoked, kq1)) :
    (∀ k, k ∈ kq1.handlers.keys ↔ k ∈ kq.handlers.keys ∧ k ∉ kqueue.oneShotIdents c events) ∧
    (∀ k, k ∉ kqueue.oneShotIdents c events → kq1.handlers.get? k = kq.handlers.get? k) ∧
    kq1.handlers.len +
      (kq.handlers.keys.filter (fun k => decide (k ∈ kqueue.oneShotIdents c events))).length =
        kq.handlers.len := by
  have hmu : kq.handlersMu = false := by
    cases hm : kq.handlersMu
    · rfl
    · simp [kqueue.dispatch, hm] at h
  obtain ⟨inv, kq2, h2, hh, -⟩ := kqueue.kq_dispatch_registry c kq events hmu
  rw [h] at h2
  obtain ⟨-, rfl⟩ : invoked = inv ∧ kq1 = kq2 := by simpa using h2
  rw [hh]
  exact ⟨fun k => GoMap.mem_keys_without _ _ k,
    fun k hk => GoMap.get?_without_of_not_mem _ _ k hk, GoMap.len_without _ _⟩

theorem epoll.ep_foldl_dispatchEvent_fst {H : Type} (c : LinuxUnix) (events : List EpollEvent)
    (m : GoMap Int (timerHandler H)) (inv : List H) (tr : List Syscall) :
    (events.foldl (epoll.dispatchEvent c) (m, inv, tr)).1 =
      (epoll.oneShotFds c events).foldl GoMap.delete m := by
  induction events generalizing m inv tr with
  | nil => rfl
  | cons e es ih =>
    rw [List.foldl_cons]
    by_cases hf : e.Events &&& c.EPOLLONESHOT ≠ 0
    · have : epoll.oneShotFds c (e :: es) = e.Fd :: epoll.oneShotFds c es := by
        simp only [epoll.oneShotFds]
        rw [List.filter_cons_of_pos (by simpa using hf), List.map_cons]
      rw [this, List.foldl_cons]
      simp only [epoll.dispatchEvent, if_pos hf]
      exact ih _ _ _
    · have : epoll.oneShotFds c (e :: es) = epoll.oneShotFds c es := by
        simp only [epoll.oneShotFds]
        rw [List.filter_cons_of_neg (by simpa using hf)]
      rw [this]
      simp only [epoll.dispatchEvent, if_neg hf]
      exact ih _ _ _

/-- Dispatch step of the epoll backend: the step returns, and the registry afterwards is
the registry before without the descriptors of the ready events that carry
`EPOLLONESHOT` in `Events`. -/
theorem epoll.ep_dispatch_registry {H : Type} (c : LinuxUnix) (ep : epoll H)
    (events : List EpollEvent) (hmu : ep.handlersMu = false) :
    ∃ invoked ep1, ep.dispatch c events = some (invoked, ep1) ∧
      ep1.handlers = ep.handlers.without (epoll.oneShotFds c events) ∧
      ep1.handlersMu = false ∧ ep1.fd = ep.fd := by
  refine ⟨(events.foldl (epoll.dispatchEvent c) (ep.handlers, [], ep.syscalls)).2.1,
    { ep with
      handlers := (events.foldl (epoll.dispatchEvent c) (ep.handlers, [], ep.syscalls)).1
      syscalls := (events.foldl (epoll.dispatchEvent c) (ep.handlers, [], ep.syscalls)).2.2 },
    ?_, ?_, hmu, rfl⟩
  · simp only [epoll.dispatch, hmu, Bool.false_eq_true, if_false]
  · show (events.foldl (epoll.dispatchEvent c) (ep.handlers, [], ep.syscalls)).1 = _
    rw [epoll.ep_foldl_dispatchEvent_fst, GoMap.foldl_delete_eq_without]

/-- C1 (epoll backend): a one-shot registration is added with `EPOLLIN|EPOLLONESHOT`; the
event the kernel reports when its timer fires carries `EPOLLIN` only, so the dispatch
step invokes the closure, takes the periodic branch (`unix.Read`) and leaves the handle
in the registry: after the step the registry still has the key 5 and size 1.  On the
kqueue backend the ready event of a one-shot registration carries `EV_ONESHOT` and the
same step empties the registry. -/
theorem epoll_dispatch_keeps_fired_oneshot :
    ((newEpoll Nat (.ok 3)).toOption.bind (fun ep =>
      (epoll.registerTimerEvent linuxUnix ep 1000000 (some 7) (epoll.createOk 5) none).bind
        (fun r =>
          epoll.dispatch linuxUnix r.2
            [epoll.readyEvent linuxUnix
              ⟨linuxUnix.EPOLLIN ||| linuxUnix.EPOLLONESHOT, toInt32 r.1.1⟩]))).map
      (fun r => (r.1, r.2.handlers.keys, r.2.handlers.len, r.2.syscalls.getLast?)) =
      some ([7], [5], 1, some (.read 5)) ∧
    ((newKqueue Nat (.ok 3)).toOption.bind (fun kq =>
      (kqueue.registerTimerEvent darwinUnix kq 1000000 (some 7) none).bind
        (fun r =>
          kqueue.dispatch darwinUnix r.2
            [⟨r.1.1, darwinUnix.EVFILT_TIMER, darwinUnix.EV_ONESHOT, 0, 1⟩]))).map
      (fun r => (r.1, r.2.handlers.keys, r.2.handlers.len)) = some ([7], [], 0) := by
  decide

/-! ## Deleting an unknown handle -/

theorem kqueue.kq_deleteEvent_of_not_mem {H : Type} (c : DarwinUnix) (kq : kqueue H) (id : Nat)
    (kerr : Option Nat) (hmu : kq.handlersMu = false) (hid : id ∉ kq.handlers.keys) :
    kq.deleteEvent c id kerr = some (none, kq) := by
  have hc : kq.handlers.contains id = false := (GoMap.contains_eq_false_iff _ _).mpr hid
  simp [kqueue.deleteEvent, hmu, hc]

theorem epoll.ep_deleteEvent_of_not_mem {H : Type} (c : LinuxUnix) (ep : epoll H) (id : Int)
    (ctl : Option Nat) (hmu : ep.handlersMu = false) (hid : id ∉ ep.handlers.keys) :
    ep.deleteEvent c id ctl = some (none, ep) := by
  have hc : ep.handlers.contains id = false := (GoMap.contains_eq_false_iff _ _).mpr hid
  simp [epoll.deleteEvent, hmu, hc]

theorem kqueue.kq_deleteEvent_post {H : Type} (c : DarwinUnix) (kq kq1 : kqueue H) (id : Nat)
    (kerr : Option Nat) (r : Option KqError) (h : kq.deleteEvent c id kerr = some (r, kq1)) :
    kq1.handlersMu = false ∧ id ∉ kq1.handlers.keys ∧ kq1.handlers = kq.handlers.delete id ∧
      kq1.nextID = kq.nextID := by
  unfold kqueue.deleteEvent at h
  cases hm : kq.handlersMu
  · by_cases hc : kq.handlers.contains id = true
    · have hnot : id ∉ (kq.handlers.delete id).keys := by
        rw [GoMap.mem_keys_delete]; simp
      cases kerr <;> simp [hm, hc] at h <;> obtain ⟨-, rfl⟩ := h <;>
        exact ⟨rfl, hnot, rfl, rfl⟩
    · have hid : id ∉ kq.handlers.keys := by
        rw [← GoMap.contains_eq_true_iff]; exact hc
      simp [hm, hc] at h
      obtain ⟨-, rfl⟩ := h
      exact ⟨hm, hid, (GoMap.delete_of_not_mem _ _ hid).symm, rfl⟩
  · simp [hm] at h

theorem epoll.ep_deleteEvent_post {H : Type} (c : LinuxUnix) (ep ep1 : epoll H) (id : Int)
    (ctl : Option Nat) (r : Option EpError) (h : ep.deleteEvent c id ctl = some (r, ep1)) :
    ep1.handlersMu = false ∧ id ∉ ep1.handlers.keys ∧ ep1.handlers = ep.handlers.delete id := by
  unfold epoll.deleteEvent at h
  cases hm : ep.handlersMu
  · by_cases hc : ep.handlers.contains id = true
    · have hnot : id ∉ (ep.handlers.delete id).keys := by
        rw [GoMap.mem_keys_delete]; simp
      cases ctl <;> simp [hm, hc] at h <;> obtain ⟨-, rfl⟩ := h <;>
        exact ⟨rfl, hnot, rfl⟩
    · have hid : id ∉ ep.handlers.keys := by
        rw [← GoMap.contains_eq_true_iff]; exact hc
      simp [hm, hc] at h
      obtain ⟨-, rfl⟩ := h
      exact ⟨hm, hid, (GoMap.delete_of_not_mem _ _ hid).symm⟩
  · simp [hm] at h

/-- C2: on both backends, with the mutex free, `deleteEvent` of an id that is not a key
of the registry returns no error and leaves the whole backend state as it was (registry
with its keys, closures and size, and the trace of kernel calls: no call is issued).
In particular a `deleteEvent(id)` that follows a `deleteEvent(id)` which returned gives
no error and changes nothing. -/
theorem deleteEvent_unknown_is_noop {H : Type} (cd : DarwinUnix) (cl : LinuxUnix)
    (kq : kqueue H) (ep : epoll H) (id : Nat) (tfd : Int) (kerr ctl : Option Nat)
    (hkq : kq.handlersMu = false) (hep : ep.handlersMu = false)
    (hid : id ∉ kq.handlers.keys) (htfd : tfd ∉ ep.handlers.keys) :
    kq.deleteEvent cd id kerr = some (none, kq) ∧
    ep.deleteEvent cl tfd ctl = some (none, ep) ∧
    (∀ (kq1 kq2 : kqueue H) (id1 : Nat) (e1 e2 : Option Nat) (r : Option KqError),
      kq1.deleteEvent cd id1 e1 = some (r, kq2) →
        kq2.deleteEvent cd id1 e2 = some (none, kq2)) ∧
    (∀ (ep1 ep2 : epoll H) (id1 : Int) (e1 e2 : Option Nat) (r : Option EpError),
      ep1.deleteEvent cl id1 e1 = some (r, ep2) →
        ep2.deleteEvent cl id1 e2 = some (none, ep2)) := by
  refine ⟨kqueue.kq_deleteEvent_of_not_mem cd kq id kerr hkq hid,
    epoll.ep_deleteEvent_of_not_mem cl ep tfd ctl hep htfd, ?_, ?_⟩
  · intro kq1 kq2 id1 e1 e2 r h
    obtain ⟨hm, hn, -⟩ := kqueue.kq_deleteEvent_post cd kq1 kq2 id1 e1 r h
    exact kqueue.kq_deleteEvent_of_not_mem cd kq2 id1 e2 hm hn
  · intro ep1 ep2 id1 e1 e2 r h
    obtain ⟨hm, hn, -⟩ := epoll.ep_deleteEvent_post cl ep1 ep2 id1 e1 r h
    exact epoll.ep_deleteEvent_of_not_mem cl ep2 id1 e2 hm hn

/-- Witness for C2: on the sample backends (one live registration each) the ids 9 and 8
are unknown, the mutexes are free, and deleting them changes nothing. -/
theorem deleteEvent_unknown_is_noop_witness :
    (9 ∉ kqueue.sample.handlers.keys ∧ 8 ∉ epoll.sample.handlers.keys) ∧
    kqueue.sample.deleteEvent darwinUnix 9 (some 2) = some (none, kqueue.sample) ∧
    epoll.sample.deleteEvent linuxUnix 8 (some 2) = some (none, epoll.sample) :=
  have h := deleteEvent_unknown_is_noop darwinUnix linuxUnix kqueue.sample epoll.sample 9 8
    (some 2) (some 2) rfl rfl (by decide) (by decide)
  ⟨⟨by decide, by decide⟩, h.1, h.2.1⟩

/-! ## Registration when arming fails -/

theorem epoll.createTimer_frame {H : Type} (c : LinuxUnix) (ep : epoll H) (d : Int)
    (k : CreateTimerKernel) :
    (ep.createTimer c d k).2.handlers = ep.handlers ∧
      (ep.createTimer c d k).2.handlersMu = ep.handlersMu ∧
      (ep.createTimer c d k).2.fd = ep.fd := by
  obtain ⟨b, m, s⟩ := k
  cases b <;> cases m <;> cases s <;> simp [epoll.createTimer, timerFdCreate]

theorem kqueue.kq_registerTimerEvent_eq {H : Type} (c : DarwinUnix) (kq : kqueue H) (d : Int)
    (handler : timerHandler H) (kerr : Option Nat) (hmu : kq.handlersMu = false)
    (hnew : (kq.nextID + 1) % 2 ^ 64 ∉ kq.handlers.keys) :
    kq.registerTimerEvent c d handler kerr =
      some ((match kerr with
          | some e => (0, some (.couldNotCreateOneTimeEvent ((kq.nextID + 1) % 2 ^ 64) e))
          | none => ((kq.nextID + 1) % 2 ^ 64, none)),
        { kq with
          nextID := (kq.nextID + 1) % 2 ^ 64
          handlers := kq.handlers.set ((kq.nextID + 1) % 2 ^ 64) handler
          syscalls := kq.syscalls ++
            [⟨kq.fd, [newOneShotTimerEvent c ((kq.nextID + 1) % 2 ^ 64) d], kerr⟩] }) := by
  have hc : kq.handlers.contains ((kq.nextID + 1) % 2 ^ 64) = false :=
    (GoMap.contains_eq_false_iff _ _).mpr hnew
  cases kerr <;> simp only [kqueue.registerTimerEvent, hmu, hc, Bool.false_eq_true, if_false]

theorem kqueue.kq_registerTickerEvent_eq {H : Type} (c : DarwinUnix) (kq : kqueue H) (d : Int)
    (handler : timerHandler H) (kerr : Option Nat) (hmu : kq.handlersMu = false)
    (hnew : (kq.nextID + 1) % 2 ^ 64 ∉ kq.handlers.keys) :
    kq.registerTickerEvent c d handler kerr =
      some ((match kerr with
          | some e => (0, some (.couldNotCreatePeriodicEvent ((kq.nextID + 1) % 2 ^ 64) e))
          | none => ((kq.nextID + 1) % 2 ^ 64, none)),
        { kq with
          nextID := (kq.nextID + 1) % 2 ^ 64
          handlers := kq.handlers.set ((kq.nextID + 1) % 2 ^ 64) handler
          syscalls := kq.syscalls ++
            [⟨kq.fd, [newPeriodicTimerEvent c ((kq.nextID + 1) % 2 ^ 64) d], kerr⟩] }) := by
  have hc : kq.handlers.contains ((kq.nextID + 1) % 2 ^ 64) = false :=
    (GoMap.contains_eq_false_iff _ _).mpr hnew
  cases kerr <;> simp only [kqueue.registerTickerEvent, hmu, hc, Bool.false_eq_true, if_false]

theorem epoll.ep_registerTimerEvent_eq {H : Type} (c : LinuxUnix) (ep : epoll H) (d : Int)
    (handler : timerHandler H) (k : CreateTimerKernel) (ctl : Option Nat)
    (hmu : ep.handlersMu = false) (hnew : (ep.createTimer c d k).1.1 ∉ ep.handlers.keys) :
    ep.registerTimerEvent c d handler k ctl =
      some ((match ctl with
          | some e => (0, some (.couldNotCreateOneTimeEvent (ep.createTimer c d k).1.1 e))
          | none => ((ep.createTimer c d k).1.1, none)),
        { (ep.createTimer c d k).2 with
          handlers := (ep.createTimer c d k).2.handlers.set (ep.createTimer c d k).1.1 handler
          syscalls := (ep.createTimer c d k).2.syscalls ++
            [.epoll_ctl (ep.createTimer c d k).2.fd c.EPOLL_CTL_ADD (ep.createTimer c d k).1.1
              (some ⟨c.EPOLLIN ||| c.EPOLLONESHOT, toInt32 (ep.createTimer c d k).1.1⟩) ctl] }) := by
  obtain ⟨hh, hm, -⟩ := epoll.createTimer_frame c ep d k
  have hc : (ep.createTimer c d k).2.handlers.contains (ep.createTimer c d k).1.1 = false := by
    rw [hh]; exact (GoMap.contains_eq_false_iff _ _).mpr hnew
  cases ctl <;>
    simp only [epoll.registerTimerEvent, hm, hmu, hc, Bool.false_eq_true, if_false]

theorem epoll.ep_registerTickerEvent_eq {H : Type} (c : LinuxUnix) (ep : epoll H) (d : Int)
    (handler : timerHandler H) (k : CreateTimerKernel) (ctl : Option Nat)
    (hmu : ep.handlersMu = false) (hnew : (ep.createTimer c d k).1.1 ∉ ep.handlers.keys) :
    ep.registerTickerEvent c d handler k ctl =
      some ((match ctl with
          | some e => (0, some (.couldNotCreatePeriodicEvent (ep.createTimer c d k).1.1 e))
          | none => ((ep.createTimer c d k).1.1, none)),
        { (ep.createTimer c d k).2 with
          handlers := (ep.createTimer c d k).2.handlers.set (ep.createTimer c d k).1.1 handler
          syscalls := (ep.createTimer c d k).2.syscalls ++
            [.epoll_ctl (ep.createTimer c d k).2.fd c.EPOLL_CTL_ADD (ep.createTimer c d k).1.1
              (some ⟨c.EPOLLIN, toInt32 (ep.createTimer c d k).1.1⟩) ctl] }) := by
  obtain ⟨hh, hm, -⟩ := epoll.createTimer_frame c ep d k
  have hc : (ep.createTimer c d k).2.handlers.contains (ep.createTimer c d k).1.1 = false := by
    rw [hh]; exact (GoMap.contains_eq_false_iff _ _).mpr hnew
  cases ctl <;>
    simp only [epoll.registerTickerEvent, hm, hmu, hc, Bool.false_eq_true, if_false]

/-- C3 (as stated) fails: on a fresh kqueue backend, `registerTimerEvent` whose
`unix.Kevent` call fails with errno 9 returns an error, yet the registry, empty before
the call, holds the new handle 1 afterwards. -/
theorem register_arm_failure_counterexample :
    ∃ (kq kq1 : kqueue Nat) (e : KqError),
      newKqueue Nat (.ok 3) = .ok kq ∧
      kq.registerTimerEvent darwinUnix 1000000 (some 7) (some 9) = some ((0, some e), kq1) ∧
      kq.handlers.keys = [] ∧ kq1.handlers.keys = [1] ∧ kq1.handlers ≠ kq.handlers := by
  refine ⟨_, _, _, rfl, rfl, rfl, rfl, ?_⟩
  intro h
  have h1 := congrArg GoMap.keys h
  revert h1
  decide

/-- C3 (amended): with the mutex free and the new handle not yet a key (on epoll:
`createTimer` succeeded and returned it), when the arm call (`unix.Kevent`,
`unix.EpollCtl`) fails with errno `e`, `registerTimerEvent` and `registerTickerEvent`
return handle 0 and an error, and the registry afterwards is the registry before with
the entry new-handle ↦ closure added: the entry is retained and the size is one more. -/
theorem register_arm_failure_keeps_entry {H : Type} (cd : DarwinUnix) (cl : LinuxUnix)
    (kq : kqueue H) (ep : epoll H) (d : Int) (handler : timerHandler H) (e : Nat)
    (k : CreateTimerKernel) (tfd : Int)
    (hkq : kq.handlersMu = false) (hnew : (kq.nextID + 1) % 2 ^ 64 ∉ kq.handlers.keys)
    (hep : ep.handlersMu = false) (hcreate : (ep.createTimer cl d k).1 = (tfd, none))
    (htfd : tfd ∉ ep.handlers.keys) :
    (∃ err kq1, kq.registerTimerEvent cd d handler (some e) = some ((0, some err), kq1) ∧
      kq1.handlers = kq.handlers.set ((kq.nextID + 1) % 2 ^ 64) handler ∧
      kq1.handlers.get? ((kq.nextID + 1) % 2 ^ 64) = some handler ∧
      kq1.handlers.len = kq.handlers.len + 1) ∧
    (∃ err kq1, kq.registerTickerEvent cd d handler (some e) = some ((0, some err), kq1) ∧
      kq1.handlers = kq.handlers.set ((kq.nextID + 1) % 2 ^ 64) handler ∧
      kq1.handlers.get? ((kq.nextID + 1) % 2 ^ 64) = some handler ∧
      kq1.handlers.len = kq.handlers.len + 1) ∧
    (∃ err ep1, ep.registerTimerEvent cl d handler k (some e) = some ((0, some err), ep1) ∧
      ep1.handlers = ep.handlers.set tfd handler ∧
      ep1.handlers.get? tfd = some handler ∧
      ep1.handlers.len = ep.handlers.len + 1) ∧
    (∃ err ep1, ep.registerTickerEvent cl d handler k (some e) = some ((0, some err), ep1) ∧
      ep1.handlers = ep.handlers.set tfd handler ∧
      ep1.handlers.get? tfd = some handler ∧
      ep1.handlers.len = ep.handlers.len + 1) := by
  obtain ⟨hh, -, -⟩ := epoll.createTimer_frame cl ep d k
  have hfst : (ep.createTimer cl d k).1.1 = tfd := by rw [hcreate]
  rw [kqueue.kq_registerTimerEvent_eq cd kq d handler (some e) hkq hnew,
    kqueue.kq_registerTickerEvent_eq cd kq d handler (some e) hkq hnew,
    epoll.ep_registerTimerEvent_eq cl ep d handler k (some e) hep (hfst ▸ htfd),
    epoll.ep_registerTickerEvent_eq cl ep d handler k (some e) hep (hfst ▸ htfd), hfst, hh]
  exact ⟨⟨_, _, rfl, rfl, GoMap.get?_set_self _ _ _, GoMap.len_set_of_not_mem _ _ _ hnew⟩,
    ⟨_, _, rfl, rfl, GoMap.get?_set_self _ _ _, GoMap.len_set_of_not_mem _ _ _ hnew⟩,
    ⟨_, _, rfl, rfl, GoMap.get?_set_self _ _ _, GoMap.len_set_of_not_mem _ _ _ htfd⟩,
    ⟨_, _, rfl, rfl, GoMap.get?_set_self _ _ _, GoMap.len_set_of_not_mem _ _ _ htfd⟩⟩

/-- Witness for C3 (amended): the sample backends, next handles 2 and 6, arm call
failing with errno 9. -/
theorem register_arm_failure_keeps_entry_witness :
    (∃ err kq1, kqueue.sample.registerTimerEvent darwinUnix 5000 (some 8) (some 9) =
        some ((0, some err), kq1) ∧ kq1.handlers.keys = [2, 1]) ∧
    (∃ err ep1, epoll.sample.registerTimerEvent linuxUnix 5000 (some 8) (epoll.createOk 6)
        (some 9) = some ((0, some err), ep1) ∧ ep1.handlers.keys = [6, 5]) :=
  have h := register_arm_failure_keeps_entry darwinUnix linuxUnix kqueue.sample epoll.sample
    5000 (some 8) 9 (epoll.createOk 6) 6 rfl (by decide) rfl rfl (by decide)
  ⟨h.1.imp (fun _ h1 => h1.imp (fun _ h2 => ⟨h2.1, by rw [h2.2.1]; rfl⟩)),
   h.2.2.1.imp (fun _ h1 => h1.imp (fun _ h2 => ⟨h2.1, by rw [h2.2.1]; rfl⟩))⟩

/-! ## Handles of the kqueue backend -/

theorem kqueue.regCount_cons {H : Type} (op : kqueue.Op H) (ops : List (kqueue.Op H)) :
    kqueue.regCount (op :: ops) =
      (if op.isRegistration then 1 else 0) + kqueue.regCount ops := by
  unfold kqueue.regCount
  cases h : op.isRegistration
  · rw [List.filter_cons_of_neg (by simp [h])]; simp
  · rw [List.filter_cons_of_pos (by simp [h])]; simp; omega

theorem kqueue.next_handle_new {H : Type} (kq : kqueue H)
    (hkeys : ∀ k ∈ kq.handlers.keys, k ≤ kq.nextID) (hlt : kq.nextID + 1 < 2 ^ 64) :
    (kq.nextID + 1) % 2 ^ 64 = kq.nextID + 1 ∧
      (kq.nextID + 1) % 2 ^ 64 ∉ kq.handlers.keys := by
  have h1 : (kq.nextID + 1) % 2 ^ 64 = kq.nextID + 1 := Nat.mod_eq_of_lt hlt
  refine ⟨h1, ?_⟩
  rw [h1]
  intro hmem
  have := hkeys _ hmem
  omega

theorem kqueue.keys_set_le {H : Type} (m : GoMap Nat (timerHandler H)) (n : Nat)
    (v : timerHandler H) (hkeys : ∀ k ∈ m.keys, k ≤ n) :
    ∀ k ∈ (m.set (n + 1) v).keys, k ≤ n + 1 := by
  intro k hk
  rw [GoMap.keys_set, List.mem_cons] at hk
  rcases hk with rfl | hk
  · exact le_refl _
  · exact Nat.le_succ_of_le (hkeys k ((GoMap.mem_keys_delete m _ k).mp hk).1)

theorem kqueue.step_invariant {H : Type} (c : DarwinUnix) (op : kqueue.Op H) (kq : kqueue H)
    (rets : List Nat) (hmu : kq.handlersMu = false)
    (hkeys : ∀ k ∈ kq.handlers.keys, k ≤ kq.nextID) (hrets : ∀ r ∈ rets, r ≤ kq.nextID)
    (hlt : kq.nextID + (if op.isRegistration then 1 else 0) < 2 ^ 64) :
    ∃ kq1 rets1, kqueue.step c (kq, rets) op = some (kq1, rets1) ∧ kq1.handlersMu = false ∧
      kq1.nextID = kq.nextID + (if op.isRegistration then 1 else 0) ∧
      (∀ k ∈ kq1.handlers.keys, k ≤ kq1.nextID) ∧ (∀ r ∈ rets1, r ≤ kq1.nextID) := by
  cases op with
  | registerTimer d handler kerr =>
    simp only [kqueue.Op.isRegistration, if_true] at hlt ⊢
    obtain ⟨hid, hnew⟩ := kqueue.next_handle_new kq hkeys hlt
    simp only [kqueue.step, kqueue.kq_registerTimerEvent_eq c kq d handler kerr hmu hnew,
      Option.map_some', hid]
    refine ⟨_, _, rfl, hmu, rfl, kqueue.keys_set_le _ _ _ hkeys, ?_⟩
    intro r hr
    rw [List.mem_append, List.mem_singleton] at hr
    rcases hr with hr | rfl
    · exact Nat.le_succ_of_le (hrets r hr)
    · cases kerr <;> simp
  | registerTicker d handler kerr =>
    simp only [kqueue.Op.isRegistration, if_true] at hlt ⊢
    obtain ⟨hid, hnew⟩ := kqueue.next_handle_new kq hkeys hlt
    simp only [kqueue.step, kqueue.kq_registerTickerEvent_eq c kq d handler kerr hmu hnew,
      Option.map_some', hid]
    refine ⟨_, _, rfl, hmu, rfl, kqueue.keys_set_le _ _ _ hkeys, ?_⟩
    intro r hr
    rw [List.mem_append, List.mem_singleton] at hr
    rcases hr with hr | rfl
    · exact Nat.le_succ_of_le (hrets r hr)
    · cases kerr <;> simp
  | delete id kerr =>
    simp only [kqueue.Op.isRegistration, Bool.false_eq_true, if_false, Nat.add_zero] at hlt ⊢
    cases hd : kq.deleteEvent c id kerr with
    | none =>
      exfalso
      unfold kqueue.deleteEvent at hd
      cases hc : kq.handlers.contains id <;> cases kerr <;> simp [hmu, hc] at hd
    | some res =>
      obtain ⟨r, kq1⟩ := res
      obtain ⟨h1, -, h3, h4⟩ := kqueue.kq_deleteEvent_post c kq kq1 id kerr r hd
      refine ⟨kq1, rets, by simp [kqueue.step, hd], h1, h4, ?_, ?_⟩
      · intro k hk
        rw [h3, GoMap.mem_keys_delete] at hk
        rw [h4]; exact hkeys k hk.1
      · rw [h4]; exact hrets
  | dispatch events =>
    simp only [kqueue.Op.isRegistration, Bool.false_eq_true, if_false, Nat.add_zero] at hlt ⊢
    obtain ⟨inv, kq1, h1, h2, h3, h4, -⟩ := kqueue.kq_dispatch_registry c kq events hmu
    refine ⟨kq1, rets, by simp [kqueue.step, h1], h4, h3, ?_, ?_⟩
    · intro k hk
      rw [h2, GoMap.mem_keys_without] at hk
      rw [h3]; exact hkeys k hk.1
    · rw [h3]; exact hrets

theorem kqueue.run_invariant {H : Type} (c : DarwinUnix) (ops : List (kqueue.Op H)) :
    ∀ (kq : kqueue H) (rets : List Nat), kq.handlersMu = false →
      (∀ k ∈ kq.handlers.keys, k ≤ kq.nextID) → (∀ r ∈ rets, r ≤ kq.nextID) →
      kq.nextID + kqueue.regCount ops < 2 ^ 64 →
      ∃ kq1 rets1, kqueue.run c (kq, rets) ops = some (kq1, rets1) ∧ kq1.handlersMu = false ∧
        kq1.nextID = kq.nextID + kqueue.regCount ops ∧
        (∀ k ∈ kq1.handlers.keys, k ≤ kq1.nextID) ∧ (∀ r ∈ rets1, r ≤ kq1.nextID) := by
  induction ops with
  | nil =>
    intro kq rets hmu hkeys hrets _
    exact ⟨kq, rets, rfl, hmu, by simp [kqueue.regCount], hkeys, hrets⟩
  | cons op ops ih =>
    intro kq rets hmu hkeys hrets hlt
    rw [kqueue.regCount_cons] at hlt
    obtain ⟨kq1, rets1, hs, hmu1, hn1, hkeys1, hrets1⟩ :=
      kqueue.step_invariant c op kq rets hmu hkeys hrets (by omega)
    obtain ⟨kq2, rets2, hr, hmu2, hn2, hkeys2, hrets2⟩ :=
      ih kq1 rets1 hmu1 hkeys1 hrets1 (by omega)
    refine ⟨kq2, rets2, ?_, hmu2, ?_, hkeys2, hrets2⟩
    · simp only [kqueue.run, hs, Option.some_bind]
      exact hr
    · rw [hn2, hn1, kqueue.regCount_cons]; omega

/-- C4: start from `newKqueue` and run any sequence of `registerTimerEvent`,
`registerTickerEvent`, `deleteEvent` and dispatch steps, with any kernel answers, that
holds fewer than 2^64 registrations.  The run never blocks, `nextID` is the number of
registrations, and every registry key and every handle returned so far is at most
`nextID`.  If one more registration still keeps the count below 2^64, then that
registration (timer or ticker) returns, does not take the already-registered branch,
generates the handle `nextID + 1`, which is strictly greater than every handle returned
before and every key; it puts the new entry in front of the unchanged old entries (none
is overwritten), so the size grows by exactly one, and when the kernel call succeeds it
returns that handle without error. -/
theorem kqueue_handles_unique {H : Type} (c : DarwinUnix) (fd : Int) (kq0 : kqueue H)
    (ops : List (kqueue.Op H)) (h0 : newKqueue H (.ok fd) = .ok kq0)
    (hcount : kqueue.regCount ops < 2 ^ 64) :
    ∃ kq rets, kqueue.run c (kq0, []) ops = some (kq, rets) ∧
      kq.nextID = kqueue.regCount ops ∧
      (∀ k ∈ kq.handlers.keys, k ≤ kq.nextID) ∧ (∀ r ∈ rets, r ≤ kq.nextID) ∧
      (kqueue.regCount ops + 1 < 2 ^ 64 →
        ∀ reg, (reg = kqueue.registerTimerEvent c ∨ reg = kqueue.registerTickerEvent c) →
          ∀ (d : Int) (handler : timerHandler H) (kerr : Option Nat),
            ∃ id err kq1, reg kq d handler kerr = some ((id, err), kq1) ∧
              (∀ x, err ≠ some (.alreadyRegistered x)) ∧
              kq1.nextID = kq.nextID + 1 ∧
              (∀ r ∈ rets, r < kq1.nextID) ∧ (∀ k ∈ kq.handlers.keys, k < kq1.nextID) ∧
              kq1.handlers.entries = (kq1.nextID, handler) :: kq.handlers.entries ∧
              kq1.handlers.len = kq.handlers.len + 1 ∧
              (kerr = none → id = kq1.nextID ∧ err = none)) := by
  have hkq0 : kq0 = ⟨fd, 0, GoMap.empty, false, []⟩ := by
    simp only [newKqueue, Except.ok.injEq] at h0
    exact h0.symm
  have hkeys0 : ∀ k ∈ kq0.handlers.keys, k ≤ kq0.nextID := by
    intro k hk; rw [hkq0] at hk; simp [GoMap.keys, GoMap.empty] at hk
  have hn0 : kq0.nextID = 0 := by rw [hkq0]
  obtain ⟨kq, rets, hrun, hmu, hn, hkeys, hrets⟩ :=
    kqueue.run_invariant c ops kq0 [] (by rw [hkq0]) hkeys0 (by simp) (by omega)
  rw [hn0, Nat.zero_add] at hn
  refine ⟨kq, rets, hrun, hn, hkeys, hrets, ?_⟩
  intro hlt reg hreg d handler kerr
  obtain ⟨hid, hnew⟩ := kqueue.next_handle_new kq hkeys (by omega)
  have hnew1 : kq.nextID + 1 ∉ kq.handlers.keys := hid ▸ hnew
  have hr : ∀ r ∈ rets, r < kq.nextID + 1 := fun r h => Nat.lt_succ_of_le (hrets r h)
  have hk : ∀ k ∈ kq.handlers.keys, k < kq.nextID + 1 := fun k h => Nat.lt_succ_of_le (hkeys k h)
  rcases hreg with rfl | rfl
  · rw [kqueue.kq_registerTimerEvent_eq c kq d handler kerr hmu hnew, hid]
    refine ⟨_, _, _, rfl, ?_, rfl, hr, hk, GoMap.set_entries_of_not_mem _ _ _ hnew1,
      GoMap.len_set_of_not_mem _ _ _ hnew1, ?_⟩
    · cases kerr <;> simp
    · rintro rfl; exact ⟨rfl, rfl⟩
  · rw [kqueue.kq_registerTickerEvent_eq c kq d handler kerr hmu hnew, hid]
    refine ⟨_, _, _, rfl, ?_, rfl, hr, hk, GoMap.set_entries_of_not_mem _ _ _ hnew1,
      GoMap.len_set_of_not_mem _ _ _ hnew1, ?_⟩
    · cases kerr <;> simp
    · rintro rfl; exact ⟨rfl, rfl⟩

/-- Witness for C4: a timer registration, its firing, a ticker registration whose kernel
call fails, and a delete; two registrations, so `nextID` is 2. -/
theorem kqueue_handles_unique_witness :
    kqueue.regCount
        [kqueue.Op.registerTimer 1000 (some 7) none,
         .dispatch [newOneShotTimerEvent darwinUnix 1 1000],
         .registerTicker 2000 (some 8) (some 9), .delete 2 none] < 2 ^ 64 ∧
    ∃ kq rets,
      kqueue.run darwinUnix
        ((⟨3, 0, GoMap.empty, false, []⟩ : kqueue Nat), [])
        [.registerTimer 1000 (some 7) none,
         .dispatch [newOneShotTimerEvent darwinUnix 1 1000],
         .registerTicker 2000 (some 8) (some 9), .delete 2 none] = some (kq, rets) ∧
      kq.nextID = 2 :=
  ⟨by decide,
   (kqueue_handles_unique darwinUnix 3 _ _ rfl (by decide)).imp
    (fun _ h => h.imp (fun _ h1 => ⟨h1.1, h1.2.1⟩))⟩

/-! ## Reset on the kqueue backend -/

theorem lor_land_self_right (a o : Nat) : (a ||| o) &&& o = o := by
  apply Nat.eq_of_testBit_eq
  intro i
  rw [Nat.testBit_land, Nat.testBit_lor]
  cases a.testBit i <;> cases o.testBit i <;> rfl

theorem kqueue.kq_registerTimerEvent_ok {H : Type} (c : DarwinUnix) (kq0 kq1 : kqueue H) (d0 : Int)
    (handler : timerHandler H) (id : Nat)
    (hreg : kq0.registerTimerEvent c d0 handler none = some ((id, none), kq1)) :
    kq1.syscalls = kq0.syscalls ++ [⟨kq0.fd, [newOneShotTimerEvent c id d0], none⟩] ∧
      kq1.handlers = kq0.handlers.set id handler ∧ kq1.nextID = id ∧
      kq1.handlersMu = false ∧ kq1.fd = kq0.fd := by
  unfold kqueue.registerTimerEvent at hreg
  cases hm : kq0.handlersMu
  · rw [hm] at hreg
    simp only [Bool.false_eq_true, if_false] at hreg
    cases hc : kq0.handlers.contains ((kq0.nextID + 1) % 2 ^ 64)
    · rw [hc] at hreg
      simp only [Bool.false_eq_true, if_false, Option.some.injEq, Prod.mk.injEq,
        and_true] at hreg
      obtain ⟨rfl, rfl⟩ := hreg
      exact ⟨rfl, rfl, rfl, rfl, rfl⟩
    · rw [hc] at hreg
      simp at hreg
  · rw [hm] at hreg
    simp at hreg

/-- C5 (as stated) fails for a handle that came from `registerTickerEvent`: the event
submitted at registration has `EV_ONESHOT` clear, the event `resetTimerEvent` submits for
the same handle has it set. -/
theorem reset_ticker_counterexample :
    ∃ (kq kq1 : kqueue Nat) (id : Nat) (e0 ev : Kevent_t),
      newKqueue Nat (.ok 3) = .ok kq ∧
      kq.registerTickerEvent darwinUnix 1000000 (some 7) none = some ((id, none), kq1) ∧
      kq1.syscalls.getLast? = some ⟨3, [e0], none⟩ ∧
      (kq1.resetTimerEvent darwinUnix id 2000000 none).2.syscalls.getLast? =
        some ⟨3, [ev], none⟩ ∧
      ev.Ident = e0.Ident ∧
      e0.Flags &&& darwinUnix.EV_ONESHOT = 0 ∧ ev.Flags &&& darwinUnix.EV_ONESHOT ≠ 0 := by
  refine ⟨⟨3, 0, GoMap.empty, false, []⟩, _, 1, newPeriodicTimerEvent darwinUnix 1 1000000,
    newOneShotTimerEvent darwinUnix 1 2000000, rfl, rfl, rfl, rfl, rfl, ?_, ?_⟩ <;> decide

/-- C5 (amended): for a handle `id` that a successful `registerTimerEvent` returned and
every duration `d`, `resetTimerEvent(id, d)` on any later state submits one kernel event
with ident `id`, data `d` and the same filter, flags (`EV_ADD|EV_ENABLE|EV_ONESHOT`, so
`EV_ONESHOT` set) and fflags as the event submitted when `id` was registered; registry,
counter and mutex are unchanged, and the kernel errno is returned wrapped. -/
theorem reset_keeps_identity_of_timer {H : Type} (c : DarwinUnix) (kq0 kq1 kq : kqueue H)
    (d0 d : Int) (handler : timerHandler H) (id : Nat) (kerr : Option Nat)
    (hreg : kq0.registerTimerEvent c d0 handler none = some ((id, none), kq1)) :
    ∃ e0 ev, kq1.syscalls = kq0.syscalls ++ [⟨kq0.fd, [e0], none⟩] ∧
      (kq.resetTimerEvent c id d kerr).2.syscalls = kq.syscalls ++ [⟨kq.fd, [ev], kerr⟩] ∧
      e0.Ident = id ∧ ev.Ident = id ∧ ev.Data = d ∧
      ev.Filter = e0.Filter ∧ ev.Flags = e0.Flags ∧ ev.Fflags = e0.Fflags ∧
      ev.Flags = c.EV_ADD ||| c.EV_ENABLE ||| c.EV_ONESHOT ∧
      ev.Flags &&& c.EV_ONESHOT = c.EV_ONESHOT ∧
      (kq.resetTimerEvent c id d kerr).2.handlers = kq.handlers ∧
      (kq.resetTimerEvent c id d kerr).2.nextID = kq.nextID ∧
      (kq.resetTimerEvent c id d kerr).2.handlersMu = kq.handlersMu ∧
      (kq.resetTimerEvent c id d kerr).1 = kerr.map (KqError.couldNotUpdateTimerEvent id) := by
  obtain ⟨hs, -⟩ := kqueue.kq_registerTimerEvent_ok c kq0 kq1 d0 handler id hreg
  refine ⟨newOneShotTimerEvent c id d0, newOneShotTimerEvent c id d, hs, ?_, rfl, rfl, rfl,
    rfl, rfl, rfl, rfl, lor_land_self_right _ _, ?_, ?_, ?_, ?_⟩ <;>
  cases kerr <;> rfl

/-- Witness for C5 (amended): handle 1 registered as a timer on a fresh backend, then
reset to 2 ms on the sample backend. -/
theorem reset_keeps_identity_of_timer_witness :
    ∃ e0 ev : Kevent_t, e0.Ident = 1 ∧ ev.Ident = 1 ∧ ev.Data = 2000000 ∧
      ev.Flags = e0.Flags ∧
      (kqueue.sample.resetTimerEvent darwinUnix 1 2000000 none).2.handlers =
        kqueue.sample.handlers :=
  (reset_keeps_identity_of_timer darwinUnix ⟨3, 0, GoMap.empty, false, []⟩ _ kqueue.sample
    1000000 2000000 (some 7) 1 none rfl).imp
    (fun _ h => h.imp (fun _ h1 =>
      ⟨h1.2.2.1, h1.2.2.2.1, h1.2.2.2.2.1, h1.2.2.2.2.2.2.1, h1.2.2.2.2.2.2.2.2.2.2.1⟩))

/-! ## Reset on the epoll backend -/

/-- C6 (epoll backend): `resetTimerEvent` returns the error "not implemented" for every
handle and duration, whatever the kernel would do, so `resetTimer` panics and
`Timer.Reset` aborts instead of returning true; shown also on the timer that
`NewTimer(1h)` returns on a fresh backend (live one-shot handle 5).  On the kqueue
backend `resetTimerEvent` returns no error when `unix.Kevent` succeeds. -/
theorem epoll_reset_not_implemented :
    (∀ (ep : epoll Closure) (id d : Int),
      (ep.resetTimerEvent id d).1 = some EpError.notImplemented ∧
      resetTimer ep id d = .panic (.engine .notImplemented)) ∧
    (∀ (t : Timer) (ep : epoll Closure) (d : Int),
      Timer.Reset t ep d = .panic (.engine .notImplemented)) ∧
    (∃ t ep, NewTimer linuxUnix ⟨3, GoMap.empty, false, []⟩ 3600000000000 (epoll.createOk 5)
        none = .ret (t, ep) ∧ t.id = 5 ∧ ep.handlers.keys = [5] ∧
      Timer.Reset t ep 3600000000001 = .panic (.engine .notImplemented)) ∧
    (∀ (c : DarwinUnix) (kq : kqueue Closure) (id : Nat) (d : Int),
      (kq.resetTimerEvent c id d none).1 = none) :=
  ⟨fun _ _ _ => ⟨rfl, rfl⟩, fun _ _ _ => rfl, ⟨_, _, rfl, rfl, rfl, rfl⟩, fun _ _ _ _ => rfl⟩

/-! ## Register, then delete -/

/-- C7 (epoll backend): one iteration (and likewise three) of `registerTimerEvent`
followed by `deleteEvent` of the returned handle, every kernel call succeeding, leaves
the registry empty but leaves the timer descriptor open: `deleteEvent` issues
`EPOLL_CTL_DEL` and never `close`.  The same loop on the kqueue backend leaves no live
kernel timer. -/
theorem epoll_register_delete_leaks_timerfd :
    (epoll.registerDeleteLoop linuxUnix 1000000000 (some 7) [5]
        (⟨3, GoMap.empty, false, []⟩ : epoll Nat)).map
      (fun ep => (ep.handlers.keys, epoll.liveTimerFds ep.syscalls,
        decide (Syscall.close 5 ∈ ep.syscalls))) = some ([], [5], false) ∧
    (epoll.registerDeleteLoop linuxUnix 1000000000 (some 7) [5, 6, 7]
        (⟨3, GoMap.empty, false, []⟩ : epoll Nat)).map
      (fun ep => (ep.handlers.keys, epoll.liveTimerFds ep.syscalls)) = some ([], [5, 6, 7]) ∧
    (kqueue.registerDeleteLoop darwinUnix 1000000000 (some 7) 3
        (⟨3, 0, GoMap.empty, false, []⟩ : kqueue Nat)).map
      (fun kq => (kq.handlers.keys, kqueue.liveTimers darwinUnix kq.syscalls)) =
        some ([], []) := by
  decide

/-! ## Timer.Stop -/

theorem Timer.Stop_keeps_timer (c : LinuxUnix) (t t1 : Timer) (ep ep1 : epoll Closure)
    (ctl : Option Nat) (b : Bool) (h : Timer.Stop c t ep ctl = .ret (b, t1, ep1)) : t1 = t := by
  unfold Timer.Stop at h
  cases hs : t.stopped
  · rw [hs] at h
    simp only [Bool.false_eq_true, if_false] at h
    cases hst : stopTimer c ep t.id ctl <;> rw [hst] at h <;> simp at h
    exact h.2.1.symm
  · rw [hs] at h
    simp only [if_true, Outcome.ret.injEq, Prod.mk.injEq] at h
    exact h.2.1.symm

/-- C8: `t := NewTimer(1s)` on a fresh epoll backend (descriptor 5), then `t.Stop()`
with `unix.EpollCtl` succeeding: the call returns true and the handle is gone from the
registry, but `t.stopped` is still false, because `Stop` reads the field and never
writes it.  The second `t.Stop()` therefore calls `stopTimer` again; it returns true and
changes neither `t` nor the backend. -/
theorem timer_stop_leaves_stopped_false :
    ∃ (t t1 t2 : Timer) (ep ep1 ep2 : epoll Closure),
      NewTimer linuxUnix ⟨3, GoMap.empty, false, []⟩ 1000000000 (epoll.createOk 5) none =
        .ret (t, ep) ∧
      ep.handlers.keys = [5] ∧ t.id = 5 ∧
      Timer.Stop linuxUnix t ep none = .ret (true, t1, ep1) ∧
      t1.stopped = false ∧ t1 = t ∧ ep1.handlers.keys = [] ∧
      Timer.Stop linuxUnix t1 ep1 none = .ret (true, t2, ep2) ∧
      t2 = t1 ∧ ep2.handlers.keys = [] ∧ ep2.syscalls = ep1.syscalls :=
  ⟨_, _, _, _, _, _, rfl, rfl, rfl, rfl, rfl, rfl, rfl, rfl, rfl, rfl, rfl⟩

/-! ## Clock readings -/

theorem Timespec.nanos_le_of_lexLe (a b : Timespec) (ha : a.inRange) (hb : b.inRange)
    (h : a.lexLe b) : a.Sec * 1000000000 + a.Nsec ≤ b.Sec * 1000000000 + b.Nsec := by
  unfold Timespec.inRange at ha hb
  unfold Timespec.lexLe at h
  omega

theorem nanotime_of_inRange (ts : Timespec) (h : ts.inRange) :
    nanotime (.ok ts) = .ret (ts.Sec * 1000000000 + ts.Nsec).toNat ∧
      ((ts.Sec * 1000000000 + ts.Nsec).toNat : Int) = ts.Sec * 1000000000 + ts.Nsec ∧
      Now (.ok ts) = .ret ⟨ts.Sec * 1000000000 + ts.Nsec⟩ := by
  unfold Timespec.inRange at h
  have h63 : (2 : Int) ^ 63 = 9223372036854775808 := by norm_num
  rw [h63] at h
  have e1 : wrapInt64 (ts.Sec * 1000000000) = ts.Sec * 1000000000 := by
    unfold wrapInt64; norm_num; omega
  have e2 : wrapInt64 (ts.Sec * 1000000000 + ts.Nsec) = ts.Sec * 1000000000 + ts.Nsec := by
    unfold wrapInt64; norm_num; omega
  have e3 : toUint64 (ts.Sec * 1000000000 + ts.Nsec) = (ts.Sec * 1000000000 + ts.Nsec).toNat := by
    unfold toUint64; norm_num; congr 1; omega
  have e4 : ((ts.Sec * 1000000000 + ts.Nsec).toNat : Int) = ts.Sec * 1000000000 + ts.Nsec := by
    omega
  refine ⟨?_, e4, ?_⟩
  · simp only [nanotime, e1, e2, e3]
  · simp only [Now, nanotime, e1, e2, e3, e4]

theorem Timespec.nanos_mono (rs : List Timespec) (hrange : ∀ ts ∈ rs, ts.inRange)
    (hmono : rs.Chain' Timespec.lexLe) :
    ∀ (j : Nat) (hj : j < rs.length) (i : Nat) (hij : i ≤ j),
      (rs.get ⟨i, by omega⟩).Sec * 1000000000 + (rs.get ⟨i, by omega⟩).Nsec ≤
        (rs.get ⟨j, hj⟩).Sec * 1000000000 + (rs.get ⟨j, hj⟩).Nsec := by
  intro j
  induction j with
  | zero =>
    intro hj i hij
    obtain rfl : i = 0 := by omega
    exact le_refl _
  | succ j ih =>
    intro hj i hij
    by_cases h : i = j + 1
    · subst h; exact le_refl _
    · have h1 := ih (by omega) i (by omega)
      have h2 := List.chain'_iff_get.mp hmono j (by omega)
      have h3 := Timespec.nanos_le_of_lexLe _ _ (hrange _ (List.get_mem rs j (by omega)))
        (hrange _ (List.get_mem rs (j + 1) hj)) h2
      exact le_trans h1 h3

/-- C10: let `rs` be successive kernel clock readings, each in range (`Sec ≥ 0`,
`0 ≤ Nsec < 10^9`, `Sec*10^9 + Nsec < 2^63`) and lexicographically nondecreasing from one
to the next.  For a reading `i` and a later (or the same) reading `j`: `nanotime()`
returns `Sec*10^9 + Nsec` on both, the earlier value is at most the later one, and with
`t = Now()` taken at reading `i`, `Since(t)` evaluated at reading `j` returns the
difference of the two values, which is `≥ 0`. -/
theorem since_nonneg (rs : List Timespec) (i j : Nat) (hij : i ≤ j) (hj : j < rs.length)
    (hrange : ∀ ts ∈ rs, ts.inRange) (hmono : rs.Chain' Timespec.lexLe) :
    ∃ (ni nj : Nat) (t : Time) (dd : Int),
      nanotime (.ok (rs.get ⟨i, by omega⟩)) = .ret ni ∧
      (ni : Int) = (rs.get ⟨i, by omega⟩).Sec * 1000000000 + (rs.get ⟨i, by omega⟩).Nsec ∧
      nanotime (.ok (rs.get ⟨j, hj⟩)) = .ret nj ∧
      (nj : Int) = (rs.get ⟨j, hj⟩).Sec * 1000000000 + (rs.get ⟨j, hj⟩).Nsec ∧
      ni ≤ nj ∧
      Now (.ok (rs.get ⟨i, by omega⟩)) = .ret t ∧ t.ns = ni ∧
      Since (.ok (rs.get ⟨j, hj⟩)) t = .ret dd ∧ dd = (nj : Int) - ni ∧ 0 ≤ dd := by
  have hi : i < rs.length := by omega
  have ri := hrange _ (List.get_mem rs i hi)
  have rj := hrange _ (List.get_mem rs j hj)
  obtain ⟨a1, a2, a3⟩ := nanotime_of_inRange _ ri
  obtain ⟨b1, b2, b3⟩ := nanotime_of_inRange _ rj
  have hle := Timespec.nanos_mono rs hrange hmono j hj i hij
  have hrj := rj
  have hri := ri
  unfold Timespec.inRange at hri hrj
  have h63 : (2 : Int) ^ 63 = 9223372036854775808 := by norm_num
  rw [h63] at hri hrj
  refine ⟨_, _, _, _, a1, a2, b1, b2, ?_, a3, a2.symm, ?_, rfl, ?_⟩
  · omega
  · have key : ∀ x y : Int, 0 ≤ x → x ≤ y → y < 9223372036854775808 →
        wrapInt64 (y - x) = y - x := by
      intro x y h1 h2 h3
      unfold wrapInt64
      norm_num
      omega
    simp only [Since, b3]
    rw [key _ _ (by omega) hle (by omega), a2, b2]
  · omega

/-- Witness for C10: three readings (1 s + 999999999 ns, 2 s, 2 s + 5 ns), `t` taken at
the first, `Since(t)` at the third. -/
theorem since_nonneg_witness :
    (∀ ts ∈ [(⟨1, 999999999⟩ : Timespec), ⟨2, 0⟩, ⟨2, 5⟩], ts.inRange) ∧
    [(⟨1, 999999999⟩ : Timespec), ⟨2, 0⟩, ⟨2, 5⟩].Chain' Timespec.lexLe ∧
    ∃ (ni nj : Nat) (t : Time) (dd : Int),
      nanotime (.ok ⟨1, 999999999⟩) = .ret ni ∧ nanotime (.ok ⟨2, 5⟩) = .ret nj ∧ ni ≤ nj ∧
      Now (.ok ⟨1, 999999999⟩) = .ret t ∧ Since (.ok ⟨2, 5⟩) t = .ret dd ∧ 0 ≤ dd :=
  have hr : ∀ ts ∈ [(⟨1, 999999999⟩ : Timespec), ⟨2, 0⟩, ⟨2, 5⟩], ts.inRange := by decide
  have hm : [(⟨1, 999999999⟩ : Timespec), ⟨2, 0⟩, ⟨2, 5⟩].Chain' Timespec.lexLe := by
    refine List.Chain'.cons ?_ (List.Chain'.cons ?_ (List.chain'_singleton _)) <;> decide
  ⟨hr, hm,
   (since_nonneg [⟨1, 999999999⟩, ⟨2, 0⟩, ⟨2, 5⟩] 0 2 (by decide) (by decide) hr hm).imp
    (fun _ h => h.imp (fun _ h1 => h1.imp (fun _ h2 => h2.imp (fun _ h3 =>
      ⟨h3.1, h3.2.2.1, h3.2.2.2.2.1, h3.2.2.2.2.2.1, h3.2.2.2.2.2.2.2.1,
        h3.2.2.2.2.2.2.2.2.2⟩))))⟩

/-! ## Single-slot delivery -/

theorem Now_ok (ts : Timespec) :
    Now (.ok ts) =
      .ret ⟨wrapInt64 (toUint64 (wrapInt64 (wrapInt64 (ts.Sec * 1000000000) + ts.Nsec)) : Nat)⟩ :=
  rfl

theorem deliver_full (ts : Timespec) (v : Time) :
    deliver (.ok ts) (some ⟨1, [v]⟩) = .ret (some ⟨1, [v]⟩) := by
  simp [deliver, Now_ok, selectSend]

theorem deliverAll_full (v : Time) (rest : List Timespec) :
    deliverAll (some ⟨1, [v]⟩) (rest.map ClockResult.ok) = .ret (some ⟨1, [v]⟩) := by
  induction rest with
  | nil => rfl
  | cons ts rest ih =>
    rw [List.map_cons, deliverAll, deliver_full]
    exact ih

theorem epoll.ep_registerTimerEvent_ok {H : Type} (c : LinuxUnix) (ep ep1 : epoll H) (d : Int)
    (handler : timerHandler H) (k : CreateTimerKernel) (ctl : Option Nat) (fd : Int)
    (h : ep.registerTimerEvent c d handler k ctl = some ((fd, none), ep1)) :
    ep1.handlers.get? fd = some handler := by
  simp only [epoll.registerTimerEvent] at h
  cases hm : (ep.createTimer c d k).2.handlersMu
  · rw [hm] at h
    simp only [Bool.false_eq_true, if_false] at h
    cases hc : (ep.createTimer c d k).2.handlers.contains (ep.createTimer c d k).1.1
    · rw [hc] at h
      cases ctl
      · simp only [Bool.false_eq_true, if_false, Option.some.injEq, Prod.mk.injEq,
          and_true] at h
        obtain ⟨rfl, rfl⟩ := h
        exact GoMap.get?_set_self _ _ _
      · simp at h
    · rw [hc] at h
      simp at h
  · rw [hm] at h
    simp at h

theorem epoll.ep_registerTickerEvent_ok {H : Type} (c : LinuxUnix) (ep ep1 : epoll H) (d : Int)
    (handler : timerHandler H) (k : CreateTimerKernel) (ctl : Option Nat) (fd : Int)
    (h : ep.registerTickerEvent c d handler k ctl = some ((fd, none), ep1)) :
    ep1.handlers.get? fd = some handler := by
  simp only [epoll.registerTickerEvent] at h
  cases hm : (ep.createTimer c d k).2.handlersMu
  · rw [hm] at h
    simp only [Bool.false_eq_true, if_false] at h
    cases hc : (ep.createTimer c d k).2.handlers.contains (ep.createTimer c d k).1.1
    · rw [hc] at h
      cases ctl
      · simp only [Bool.false_eq_true, if_false, Option.some.injEq, Prod.mk.injEq,
          and_true] at h
        obtain ⟨rfl, rfl⟩ := h
        exact GoMap.get?_set_self _ _ _
      · simp at h
    · rw [hc] at h
      simp at h
  · rw [hm] at h
    simp at h

theorem NewTimer_installs_deliver (c : LinuxUnix) (ep ep1 : epoll Closure) (d : Int)
    (k : CreateTimerKernel) (ctl : Option Nat) (t : Timer)
    (h : NewTimer c ep d k ctl = .ret (t, ep1)) :
    t.C = some (makeChan Time 1) ∧ handlerAt ep1.handlers t.id = some Closure.deliver := by
  unfold NewTimer Timer.startTimer startTimer at h
  cases hr : ep.registerTimerEvent c d (some Closure.deliver) k ctl with
  | none => rw [hr] at h; simp at h
  | some res =>
    obtain ⟨⟨fd, err⟩, ep2⟩ := res
    rw [hr] at h
    cases err with
    | some e => simp at h
    | none =>
      simp only [Outcome.ret.injEq, Prod.mk.injEq] at h
      obtain ⟨rfl, rfl⟩ := h
      have := epoll.ep_registerTimerEvent_ok c ep ep2 d _ k ctl fd hr
      exact ⟨rfl, by simp [handlerAt, this]⟩

theorem NewTicker_installs_deliver (c : LinuxUnix) (ep ep1 : epoll Closure) (d : Int)
    (k : CreateTimerKernel) (ctl : Option Nat) (t : Ticker)
    (h : NewTicker c ep d k ctl = .ret (t, ep1)) :
    t.C = some (makeChan Time 1) ∧ handlerAt ep1.handlers t.id = some Closure.deliver := by
  unfold NewTicker startTicker at h
  cases hr : ep.registerTickerEvent c d (some Closure.deliver) k ctl with
  | none => rw [hr] at h; simp at h
  | some res =>
    obtain ⟨⟨fd, err⟩, ep2⟩ := res
    rw [hr] at h
    cases err with
    | some e => simp at h
    | none =>
      simp only [Outcome.ret.injEq, Prod.mk.injEq] at h
      obtain ⟨rfl, rfl⟩ := h
      have := epoll.ep_registerTickerEvent_ok c ep ep2 d _ k ctl fd hr
      exact ⟨rfl, by simp [handlerAt, this]⟩

/-- C9: the channel of a `Timer` or `Ticker` is `make(chan Time, 1)` and the closure
registered for its handle is `deliver`.  Running `deliver` never blocks.  With the clock
reading `ts`, whose `Now()` value is `now`: on the empty buffer the run leaves exactly
`[now]`; on a full buffer `[v]` it leaves `[v]` and drops the new value.  Hence one or
more runs in a row on the fresh channel, with no receive in between, leave exactly the
value of the first run. -/
theorem single_slot_delivery (ts : Timespec) (v : Time) (rest : List Timespec) :
    ∃ now, Now (.ok ts) = .ret now ∧
      deliver (.ok ts) (some ⟨1, []⟩) = .ret (some ⟨1, [now]⟩) ∧
      deliver (.ok ts) (some ⟨1, [v]⟩) = .ret (some ⟨1, [v]⟩) ∧
      (∀ r ch, deliver r ch ≠ .blocked) ∧
      deliverAll (some (makeChan Time 1)) ((ts :: rest).map ClockResult.ok) =
        .ret (some ⟨1, [now]⟩) ∧
      (∀ c ep d k ctl t ep1, NewTimer c ep d k ctl = .ret (t, ep1) →
        t.C = some (makeChan Time 1) ∧ handlerAt ep1.handlers t.id = some Closure.deliver) ∧
      (∀ c ep d k ctl t ep1, NewTicker c ep d k ctl = .ret (t, ep1) →
        t.C = some (makeChan Time 1) ∧ handlerAt ep1.handlers t.id = some Closure.deliver) := by
  refine ⟨_, Now_ok ts, ?_, deliver_full ts v, ?_, ?_,
    fun c ep d k ctl t ep1 h => NewTimer_installs_deliver c ep ep1 d k ctl t h,
    fun c ep d k ctl t ep1 h => NewTicker_installs_deliver c ep ep1 d k ctl t h⟩
  · simp [deliver, Now_ok, selectSend]
  · intro r ch
    cases r with
    | ok ts1 => simp [deliver, Now_ok]
    | errno e => simp [deliver, Now, nanotime]
  · rw [List.map_cons, deliverAll]
    have : deliver (.ok ts) (some (makeChan Time 1)) =
        .ret (some ⟨1, [⟨wrapInt64
          (toUint64 (wrapInt64 (wrapInt64 (ts.Sec * 1000000000) + ts.Nsec)) : Nat)⟩]⟩) := by
      simp [deliver, Now_ok, selectSend, makeChan]
    rw [this]
    exact deliverAll_full _ rest


/-- Witness for C9: three runs reading 1 s + 5 ns, then 2 s, then 3 s on the fresh channel
leave the single value of the first run. -/
theorem single_slot_delivery_witness :
    ∃ now, Now (.ok ⟨1, 5⟩) = .ret now ∧ now.ns = 1000000005 ∧
      deliverAll (some (makeChan Time 1)) [.ok ⟨1, 5⟩, .ok ⟨2, 0⟩, .ok ⟨3, 0⟩] =
        .ret (some ⟨1, [now]⟩) :=
  (single_slot_delivery ⟨1, 5⟩ ⟨0⟩ [⟨2, 0⟩, ⟨3, 0⟩]).imp (fun _ h =>
    ⟨h.1, by have h1 := h.1; rw [Now_ok] at h1; cases h1; decide, h.2.2.2.2.1⟩)

/-! ## Length of the ready-event buffer -/

theorem poll.consts_eq : poll.eventsLen = 1024 ∧ poll.maxEventsLen = 32768 := by
  decide

theorem poll.growEvents_eq (len n : Nat) :
    poll.growEvents len n = if n = len ∧ 2 * len ≤ 32768 then 2 * len else len := by
  unfold poll.growEvents
  rw [poll.consts_eq.2]
  by_cases h : n = len
  · subst h
    by_cases h2 : n * 2 ≤ 32768
    · rw [if_pos ⟨rfl, h2⟩, if_pos ⟨rfl, by omega⟩]; omega
    · rw [if_neg (fun h => h2 h.2), if_neg (fun h => h2 (by omega))]
  · rw [if_neg (fun h1 => h h1.1), if_neg (fun h1 => h h1.1)]

theorem poll.growEvents_zero (len : Nat) : poll.growEvents len 0 = len := by
  rw [poll.growEvents_eq]
  by_cases h : 0 = len ∧ 2 * len ≤ 32768
  · rw [if_pos h]; omega
  · rw [if_neg h]

theorem poll.growEvents_ge (len n : Nat) : len ≤ poll.growEvents len n := by
  rw [poll.growEvents_eq]
  split <;> omega

theorem poll.growEvents_pow (k n : Nat) (hk : k ≤ 5) :
    ∃ j, k ≤ j ∧ j ≤ 5 ∧ poll.growEvents (1024 * 2 ^ k) n = 1024 * 2 ^ j := by
  rw [poll.growEvents_eq]
  by_cases h : n = 1024 * 2 ^ k ∧ 2 * (1024 * 2 ^ k) ≤ 32768
  · rw [if_pos h]
    have h2 := h.2
    refine ⟨k + 1, by omega, ?_, by rw [pow_succ]; omega⟩
    interval_cases k <;> simp_all
  · rw [if_neg h]
    exact ⟨k, le_refl _, hk, rfl⟩

theorem kqueue.kq_pollIter_len {H : Type} (c : DarwinUnix) (kq kq1 : kqueue H) (len len1 : Nat)
    (w : WaitResult Kevent_t) (h : kqueue.pollIter c kq len w = .next kq1 len1) :
    len1 = len ∨ ∃ events, w = .ready events ∧ len1 = poll.growEvents len events.length := by
  cases w with
  | fatal e => simp [kqueue.pollIter] at h
  | temporary e =>
    simp only [kqueue.pollIter, PollStep.next.injEq] at h
    exact Or.inl h.2.symm
  | ready events =>
    simp only [kqueue.pollIter] at h
    by_cases hn : events.length = 0
    · rw [if_pos hn] at h
      simp only [PollStep.next.injEq] at h
      exact Or.inl h.2.symm
    · rw [if_neg hn] at h
      cases hd : kq.dispatch c events with
      | none => rw [hd] at h; simp at h
      | some r =>
        rw [hd] at h
        simp only [PollStep.next.injEq] at h
        exact Or.inr ⟨events, rfl, h.2.symm⟩

theorem epoll.ep_pollIter_len {H : Type} (c : LinuxUnix) (ep ep1 : epoll H) (len len1 : Nat)
    (w : WaitResult EpollEvent) (h : epoll.pollIter c ep len w = .next ep1 len1) :
    len1 = len ∨ ∃ events, w = .ready events ∧ len1 = poll.growEvents len events.length := by
  cases w with
  | fatal e => simp [epoll.pollIter] at h
  | temporary e =>
    simp only [epoll.pollIter, PollStep.next.injEq] at h
    exact Or.inl h.2.symm
  | ready events =>
    simp only [epoll.pollIter] at h
    by_cases hn : events.length = 0
    · rw [if_pos hn] at h
      simp only [PollStep.next.injEq] at h
      exact Or.inl h.2.symm
    · rw [if_neg hn] at h
      cases hd : ep.dispatch c events with
      | none => rw [hd] at h; simp at h
      | some r =>
        rw [hd] at h
        simp only [PollStep.next.injEq] at h
        exact Or.inr ⟨events, rfl, h.2.symm⟩

theorem poll.step_len_inv (len len1 n : Nat) (h : len1 = poll.growEvents len n ∨ len1 = len) :
    len ≤ len1 ∧ ∀ k, k ≤ 5 → len = 1024 * 2 ^ k → ∃ j, k ≤ j ∧ j ≤ 5 ∧ len1 = 1024 * 2 ^ j := by
  rcases h with h | h
  · subst h
    refine ⟨poll.growEvents_ge len n, ?_⟩
    intro k hk hlen
    subst hlen
    exact poll.growEvents_pow k n hk
  · subst h
    exact ⟨le_refl _, fun k hk hlen => ⟨k, le_refl _, hk, hlen⟩⟩

theorem kqueue.kq_pollRun_len {H : Type} (c : DarwinUnix) (ws : List (WaitResult Kevent_t)) :
    ∀ (kq kq1 : kqueue H) (len len1 : Nat), kqueue.pollRun c kq len ws = .next kq1 len1 →
      len ≤ len1 ∧
        ∀ k, k ≤ 5 → len = 1024 * 2 ^ k → ∃ j, k ≤ j ∧ j ≤ 5 ∧ len1 = 1024 * 2 ^ j := by
  induction ws with
  | nil =>
    intro kq kq1 len len1 h
    simp only [kqueue.pollRun, PollStep.next.injEq] at h
    obtain ⟨-, rfl⟩ := h
    exact ⟨le_refl _, fun k hk hlen => ⟨k, le_refl _, hk, hlen⟩⟩
  | cons w ws ih =>
    intro kq kq1 len len1 h
    simp only [kqueue.pollRun] at h
    cases hi : kqueue.pollIter c kq len w with
    | returned s e => rw [hi] at h; simp at h
    | blocked => rw [hi] at h; simp at h
    | next kq2 len2 =>
      rw [hi] at h
      have h2 := kqueue.kq_pollIter_len c kq kq2 len len2 w hi
      have h3 : len ≤ len2 ∧
          ∀ k, k ≤ 5 → len = 1024 * 2 ^ k → ∃ j, k ≤ j ∧ j ≤ 5 ∧ len2 = 1024 * 2 ^ j := by
        rcases h2 with h2 | ⟨events, -, h2⟩
        · exact poll.step_len_inv len len2 0 (Or.inr h2)
        · exact poll.step_len_inv len len2 events.length (Or.inl h2)
      obtain ⟨h4, h5⟩ := ih kq2 kq1 len2 len1 h
      refine ⟨le_trans h3.1 h4, ?_⟩
      intro k hk hlen
      obtain ⟨j, hj1, hj2, hj3⟩ := h3.2 k hk hlen
      obtain ⟨i, hi1, hi2, hi3⟩ := h5 j hj2 hj3
      exact ⟨i, le_trans hj1 hi1, hi2, hi3⟩

theorem epoll.ep_pollRun_len {H : Type} (c : LinuxUnix) (ws : List (WaitResult EpollEvent)) :
    ∀ (ep ep1 : epoll H) (len len1 : Nat), epoll.pollRun c ep len ws = .next ep1 len1 →
      len ≤ len1 ∧
        ∀ k, k ≤ 5 → len = 1024 * 2 ^ k → ∃ j, k ≤ j ∧ j ≤ 5 ∧ len1 = 1024 * 2 ^ j := by
  induction ws with
  | nil =>
    intro ep ep1 len len1 h
    simp only [epoll.pollRun, PollStep.next.injEq] at h
    obtain ⟨-, rfl⟩ := h
    exact ⟨le_refl _, fun k hk hlen => ⟨k, le_refl _, hk, hlen⟩⟩
  | cons w ws ih =>
    intro ep ep1 len len1 h
    simp only [epoll.pollRun] at h
    cases hi : epoll.pollIter c ep len w with
    | returned s e => rw [hi] at h; simp at h
    | blocked => rw [hi] at h; simp at h
    | next ep2 len2 =>
      rw [hi] at h
      have h2 := epoll.ep_pollIter_len c ep ep2 len len2 w hi
      have h3 : len ≤ len2 ∧
          ∀ k, k ≤ 5 → len = 1024 * 2 ^ k → ∃ j, k ≤ j ∧ j ≤ 5 ∧ len2 = 1024 * 2 ^ j := by
        rcases h2 with h2 | ⟨events, -, h2⟩
        · exact poll.step_len_inv len len2 0 (Or.inr h2)
        · exact poll.step_len_inv len len2 events.length (Or.inl h2)
      obtain ⟨h4, h5⟩ := ih ep2 ep1 len2 len1 h
      refine ⟨le_trans h3.1 h4, ?_⟩
      intro k hk hlen
      obtain ⟨j, hj1, hj2, hj3⟩ := h3.2 k hk hlen
      obtain ⟨i, hi1, hi2, hi3⟩ := h5 j hj2 hj3
      exact ⟨i, le_trans hj1 hi1, hi2, hi3⟩

theorem kqueue.kq_pollIter_ready_len {H : Type} (c : DarwinUnix) (kq kq1 : kqueue H)
    (len len1 : Nat) (events : List Kevent_t)
    (h : kqueue.pollIter c kq len (.ready events) = .next kq1 len1) :
    len1 = poll.growEvents len events.length := by
  simp only [kqueue.pollIter] at h
  by_cases hn : events.length = 0
  · rw [if_pos hn] at h
    simp only [PollStep.next.injEq] at h
    rw [hn, poll.growEvents_zero]
    exact h.2.symm
  · rw [if_neg hn] at h
    cases hd : kq.dispatch c events with
    | none => rw [hd] at h; simp at h
    | some r =>
      rw [hd] at h
      simp only [PollStep.next.injEq] at h
      exact h.2.symm

theorem epoll.ep_pollIter_ready_len {H : Type} (c : LinuxUnix) (ep ep1 : epoll H)
    (len len1 : Nat) (events : List EpollEvent)
    (h : epoll.pollIter c ep len (.ready events) = .next ep1 len1) :
    len1 = poll.growEvents len events.length := by
  simp only [epoll.pollIter] at h
  by_cases hn : events.length = 0
  · rw [if_pos hn] at h
    simp only [PollStep.next.injEq] at h
    rw [hn, poll.growEvents_zero]
    exact h.2.symm
  · rw [if_neg hn] at h
    cases hd : ep.dispatch c events with
    | none => rw [hd] at h; simp at h
    | some r =>
      rw [hd] at h
      simp only [PollStep.next.injEq] at h
      exact h.2.symm

theorem kqueue.kq_pollIter_full {H : Type} (c : DarwinUnix) (kq : kqueue H) (len : Nat)
    (events : List Kevent_t) (hmu : kq.handlersMu = false) (hlen : events.length = len)
    (hpos : len ≠ 0) :
    ∃ kq1, kqueue.pollIter c kq len (.ready events) = .next kq1 (poll.growEvents len len) ∧
      kq1.handlersMu = false := by
  obtain ⟨inv, kq1, hd, -, -, hmu1, -⟩ := kqueue.kq_dispatch_registry c kq events hmu
  refine ⟨kq1, ?_, hmu1⟩
  simp only [kqueue.pollIter, hlen, if_neg hpos, hd]

theorem epoll.ep_pollIter_full {H : Type} (c : LinuxUnix) (ep : epoll H) (len : Nat)
    (events : List EpollEvent) (hmu : ep.handlersMu = false) (hlen : events.length = len)
    (hpos : len ≠ 0) :
    ∃ ep1, epoll.pollIter c ep len (.ready events) = .next ep1 (poll.growEvents len len) ∧
      ep1.handlersMu = false := by
  obtain ⟨inv, ep1, hd, -, hmu1, -⟩ := epoll.ep_dispatch_registry c ep events hmu
  refine ⟨ep1, ?_, hmu1⟩
  simp only [epoll.pollIter, hlen, if_neg hpos, hd]

theorem kqueue.kq_pollRun_five_full {H : Type} (c : DarwinUnix) (kq : kqueue H)
    (b1 b2 b3 b4 b5 : List Kevent_t) (hmu : kq.handlersMu = false)
    (h1 : b1.length = 1024) (h2 : b2.length = 2048) (h3 : b3.length = 4096)
    (h4 : b4.length = 8192) (h5 : b5.length = 16384) :
    ∃ kq1, kqueue.pollRun c kq poll.eventsLen
      [.ready b1, .ready b2, .ready b3, .ready b4, .ready b5] = .next kq1 32768 := by
  have e0 : poll.eventsLen = 1024 := poll.consts_eq.1
  obtain ⟨k1, r1, m1⟩ := kqueue.kq_pollIter_full c kq 1024 b1 hmu h1 (by decide)
  obtain ⟨k2, r2, m2⟩ := kqueue.kq_pollIter_full c k1 2048 b2 m1 h2 (by decide)
  obtain ⟨k3, r3, m3⟩ := kqueue.kq_pollIter_full c k2 4096 b3 m2 h3 (by decide)
  obtain ⟨k4, r4, m4⟩ := kqueue.kq_pollIter_full c k3 8192 b4 m3 h4 (by decide)
  obtain ⟨k5, r5, -⟩ := kqueue.kq_pollIter_full c k4 16384 b5 m4 h5 (by decide)
  have g1 : poll.growEvents 1024 1024 = 2048 := by decide
  have g2 : poll.growEvents 2048 2048 = 4096 := by decide
  have g3 : poll.growEvents 4096 4096 = 8192 := by decide
  have g4 : poll.growEvents 8192 8192 = 16384 := by decide
  have g5 : poll.growEvents 16384 16384 = 32768 := by decide
  rw [g1] at r1; rw [g2] at r2; rw [g3] at r3; rw [g4] at r4; rw [g5] at r5
  refine ⟨k5, ?_⟩
  simp only [kqueue.pollRun, e0, r1, r2, r3, r4, r5]

theorem epoll.ep_pollRun_five_full {H : Type} (c : LinuxUnix) (ep : epoll H)
    (b1 b2 b3 b4 b5 : List EpollEvent) (hmu : ep.handlersMu = false)
    (h1 : b1.length = 1024) (h2 : b2.length = 2048) (h3 : b3.length = 4096)
    (h4 : b4.length = 8192) (h5 : b5.length = 16384) :
    ∃ ep1, epoll.pollRun c ep poll.eventsLen
      [.ready b1, .ready b2, .ready b3, .ready b4, .ready b5] = .next ep1 32768 := by
  have e0 : poll.eventsLen = 1024 := poll.consts_eq.1
  obtain ⟨k1, r1, m1⟩ := epoll.ep_pollIter_full c ep 1024 b1 hmu h1 (by decide)
  obtain ⟨k2, r2, m2⟩ := epoll.ep_pollIter_full c k1 2048 b2 m1 h2 (by decide)
  obtain ⟨k3, r3, m3⟩ := epoll.ep_pollIter_full c k2 4096 b3 m2 h3 (by decide)
  obtain ⟨k4, r4, m4⟩ := epoll.ep_pollIter_full c k3 8192 b4 m3 h4 (by decide)
  obtain ⟨k5, r5, -⟩ := epoll.ep_pollIter_full c k4 16384 b5 m4 h5 (by decide)
  have g1 : poll.growEvents 1024 1024 = 2048 := by decide
  have g2 : poll.growEvents 2048 2048 = 4096 := by decide
  have g3 : poll.growEvents 4096 4096 = 8192 := by decide
  have g4 : poll.growEvents 8192 8192 = 16384 := by decide
  have g5 : poll.growEvents 16384 16384 = 32768 := by decide
  rw [g1] at r1; rw [g2] at r2; rw [g3] at r3; rw [g4] at r4; rw [g5] at r5
  refine ⟨k5, ?_⟩
  simp only [epoll.pollRun, e0, r1, r2, r3, r4, r5]

theorem kqueue.kq_pollRun_goes_on {H : Type} (c : DarwinUnix) (ws : List (WaitResult Kevent_t)) :
    ∀ (kq : kqueue H) (len : Nat), kq.handlersMu = false → (∀ w ∈ ws, ∀ e, w ≠ .fatal e) →
      ∃ kq1 len1, kqueue.pollRun c kq len ws = .next kq1 len1 ∧ kq1.handlersMu = false := by
  induction ws with
  | nil => intro kq len hmu _; exact ⟨kq, len, rfl, hmu⟩
  | cons w ws ih =>
    intro kq len hmu hw
    have hws : ∀ w1 ∈ ws, ∀ e, w1 ≠ .fatal e := fun w1 h1 => hw w1 (List.mem_cons_of_mem _ h1)
    have hstep : ∃ kq2 len2, kqueue.pollIter c kq len w = .next kq2 len2 ∧
        kq2.handlersMu = false := by
      cases w with
      | fatal e => exact absurd rfl (hw _ (List.mem_cons_self _ _) e)
      | temporary e => exact ⟨kq, len, rfl, hmu⟩
      | ready events =>
        by_cases hn : events.length = 0
        · exact ⟨kq, len, by simp only [kqueue.pollIter, if_pos hn], hmu⟩
        · obtain ⟨inv, kq2, hd, -, -, hmu2, -⟩ := kqueue.kq_dispatch_registry c kq events hmu
          exact ⟨kq2, poll.growEvents len events.length,
            by simp only [kqueue.pollIter, if_neg hn, hd], hmu2⟩
    obtain ⟨kq2, len2, h2, hmu2⟩ := hstep
    obtain ⟨kq1, len1, h1, hmu1⟩ := ih kq2 len2 hmu2 hws
    exact ⟨kq1, len1, by simp only [kqueue.pollRun, h2]; exact h1, hmu1⟩

theorem epoll.ep_pollRun_goes_on {H : Type} (c : LinuxUnix) (ws : List (WaitResult EpollEvent)) :
    ∀ (ep : epoll H) (len : Nat), ep.handlersMu = false → (∀ w ∈ ws, ∀ e, w ≠ .fatal e) →
      ∃ ep1 len1, epoll.pollRun c ep len ws = .next ep1 len1 ∧ ep1.handlersMu = false := by
  induction ws with
  | nil => intro ep len hmu _; exact ⟨ep, len, rfl, hmu⟩
  | cons w ws ih =>
    intro ep len hmu hw
    have hws : ∀ w1 ∈ ws, ∀ e, w1 ≠ .fatal e := fun w1 h1 => hw w1 (List.mem_cons_of_mem _ h1)
    have hstep : ∃ ep2 len2, epoll.pollIter c ep len w = .next ep2 len2 ∧
        ep2.handlersMu = false := by
      cases w with
      | fatal e => exact absurd rfl (hw _ (List.mem_cons_self _ _) e)
      | temporary e => exact ⟨ep, len, rfl, hmu⟩
      | ready events =>
        by_cases hn : events.length = 0
        · exact ⟨ep, len, by simp only [epoll.pollIter, if_pos hn], hmu⟩
        · obtain ⟨inv, ep2, hd, -, hmu2, -⟩ := epoll.ep_dispatch_registry c ep events hmu
          exact ⟨ep2, poll.growEvents len events.length,
            by simp only [epoll.pollIter, if_neg hn, hd], hmu2⟩
    obtain ⟨ep2, len2, h2, hmu2⟩ := hstep
    obtain ⟨ep1, len1, h1, hmu1⟩ := ih ep2 len2 hmu2 hws
    exact ⟨ep1, len1, by simp only [epoll.pollRun, h2]; exact h1, hmu1⟩

/-- C11: in `poll` of both backends the buffer starts with `eventsLen = 1024` entries and
`maxEventsLen = 32768`.  An iteration whose wait returned the `n` events of `events`
and that goes on to the next iteration leaves the length `2*len` if `n == len` and
`2*len <= 32768`, and `len` otherwise.  Hence after any sequence of wait results that
keeps the loop running the length is `1024 * 2^k` for some `k <= 5`, is at most 32768,
and never is below the length any earlier iteration started with; the loop keeps running
as long as the mutex is free at the start and no wait fails with a non-temporary error;
five consecutive full batches from the start (mutex free) bring the length to 32768. -/
theorem poll_events_len {H : Type} (cd : DarwinUnix) (cl : LinuxUnix) :
    poll.eventsLen = 1024 ∧ poll.maxEventsLen = 32768 ∧
    (∀ (kq kq1 : kqueue H) (len len1 : Nat) (events : List Kevent_t),
      kqueue.pollIter cd kq len (.ready events) = .next kq1 len1 →
        len1 = if events.length = len ∧ 2 * len ≤ 32768 then 2 * len else len) ∧
    (∀ (ep ep1 : epoll H) (len len1 : Nat) (events : List EpollEvent),
      epoll.pollIter cl ep len (.ready events) = .next ep1 len1 →
        len1 = if events.length = len ∧ 2 * len ≤ 32768 then 2 * len else len) ∧
    (∀ (kq kq1 : kqueue H) (ws : List (WaitResult Kevent_t)) (len1 : Nat),
      kqueue.pollRun cd kq poll.eventsLen ws = .next kq1 len1 →
        (∃ k, k ≤ 5 ∧ len1 = 1024 * 2 ^ k) ∧ len1 ≤ 32768) ∧
    (∀ (ep ep1 : epoll H) (ws : List (WaitResult EpollEvent)) (len1 : Nat),
      epoll.pollRun cl ep poll.eventsLen ws = .next ep1 len1 →
        (∃ k, k ≤ 5 ∧ len1 = 1024 * 2 ^ k) ∧ len1 ≤ 32768) ∧
    (∀ (kq kq1 : kqueue H) (ws : List (WaitResult Kevent_t)) (len len1 : Nat),
      kqueue.pollRun cd kq len ws = .next kq1 len1 → len ≤ len1) ∧
    (∀ (ep ep1 : epoll H) (ws : List (WaitResult EpollEvent)) (len len1 : Nat),
      epoll.pollRun cl ep len ws = .next ep1 len1 → len ≤ len1) ∧
    (∀ (kq : kqueue H) (ws : List (WaitResult Kevent_t)), kq.handlersMu = false →
      (∀ w ∈ ws, ∀ e, w ≠ .fatal e) →
        ∃ kq1 len1, kqueue.pollRun cd kq poll.eventsLen ws = .next kq1 len1) ∧
    (∀ (ep : epoll H) (ws : List (WaitResult EpollEvent)), ep.handlersMu = false →
      (∀ w ∈ ws, ∀ e, w ≠ .fatal e) →
        ∃ ep1 len1, epoll.pollRun cl ep poll.eventsLen ws = .next ep1 len1) ∧
    (∀ (kq : kqueue H) (b1 b2 b3 b4 b5 : List Kevent_t), kq.handlersMu = false →
      b1.length = 1024 → b2.length = 2048 → b3.length = 4096 → b4.length = 8192 →
      b5.length = 16384 →
        ∃ kq1, kqueue.pollRun cd kq poll.eventsLen
          [.ready b1, .ready b2, .ready b3, .ready b4, .ready b5] = .next kq1 32768) ∧
    (∀ (ep : epoll H) (b1 b2 b3 b4 b5 : List EpollEvent), ep.handlersMu = false →
      b1.length = 1024 → b2.length = 2048 → b3.length = 4096 → b4.length = 8192 →
      b5.length = 16384 →
        ∃ ep1, epoll.pollRun cl ep poll.eventsLen
          [.ready b1, .ready b2, .ready b3, .ready b4, .ready b5] = .next ep1 32768) := by
  have hpow : ∀ len1 : Nat, (∃ j, 0 ≤ j ∧ j ≤ 5 ∧ len1 = 1024 * 2 ^ j) →
      (∃ k, k ≤ 5 ∧ len1 = 1024 * 2 ^ k) ∧ len1 ≤ 32768 := by
    rintro len1 ⟨j, -, hj, rfl⟩
    refine ⟨⟨j, hj, rfl⟩, ?_⟩
    interval_cases j <;> decide
  refine ⟨poll.consts_eq.1, poll.consts_eq.2, ?_, ?_, ?_, ?_, ?_, ?_, ?_, ?_, ?_, ?_⟩
  · intro kq kq1 len len1 events h
    rw [kqueue.kq_pollIter_ready_len cd kq kq1 len len1 events h, poll.growEvents_eq]
  · intro ep ep1 len len1 events h
    rw [epoll.ep_pollIter_ready_len cl ep ep1 len len1 events h, poll.growEvents_eq]
  · intro kq kq1 ws len1 h
    exact hpow len1 ((kqueue.kq_pollRun_len cd ws kq kq1 _ len1 h).2 0 (by decide)
      (by rw [poll.consts_eq.1]; rfl))
  · intro ep ep1 ws len1 h
    exact hpow len1 ((epoll.ep_pollRun_len cl ws ep ep1 _ len1 h).2 0 (by decide)
      (by rw [poll.consts_eq.1]; rfl))
  · intro kq kq1 ws len len1 h
    exact (kqueue.kq_pollRun_len cd ws kq kq1 len len1 h).1
  · intro ep ep1 ws len len1 h
    exact (epoll.ep_pollRun_len cl ws ep ep1 len len1 h).1
  · intro kq ws hmu hw
    obtain ⟨kq1, len1, h, -⟩ := kqueue.kq_pollRun_goes_on cd ws kq _ hmu hw
    exact ⟨kq1, len1, h⟩
  · intro ep ws hmu hw
    obtain ⟨ep1, len1, h, -⟩ := epoll.ep_pollRun_goes_on cl ws ep _ hmu hw
    exact ⟨ep1, len1, h⟩
  · intro kq b1 b2 b3 b4 b5 hmu h1 h2 h3 h4 h5
    exact kqueue.kq_pollRun_five_full cd kq b1 b2 b3 b4 b5 hmu h1 h2 h3 h4 h5
  · intro ep b1 b2 b3 b4 b5 hmu h1 h2 h3 h4 h5
    exact epoll.ep_pollRun_five_full cl ep b1 b2 b3 b4 b5 hmu h1 h2 h3 h4 h5

/-- Witness for C11: on the sample backends, five full batches of sizes 1024, 2048, 4096,
8192 and 16384 bring the buffer to 32768 entries. -/
theorem poll_events_len_witness :
    (∃ kq1, kqueue.pollRun darwinUnix kqueue.sample poll.eventsLen
      [.ready (List.replicate 1024 ⟨9, -7, 0, 0, 1⟩), .ready (List.replicate 2048 ⟨9, -7, 0, 0, 1⟩),
       .ready (List.replicate 4096 ⟨9, -7, 0, 0, 1⟩), .ready (List.replicate 8192 ⟨9, -7, 0, 0, 1⟩),
       .ready (List.replicate 16384 ⟨9, -7, 0, 0, 1⟩)] = .next kq1 32768) ∧
    (∃ ep1, epoll.pollRun linuxUnix epoll.sample poll.eventsLen
      [.ready (List.replicate 1024 ⟨1, 9⟩), .ready (List.replicate 2048 ⟨1, 9⟩),
       .ready (List.replicate 4096 ⟨1, 9⟩), .ready (List.replicate 8192 ⟨1, 9⟩),
       .ready (List.replicate 16384 ⟨1, 9⟩)] = .next ep1 32768) :=
  have h := poll_events_len (H := Nat) darwinUnix linuxUnix
  ⟨h.2.2.2.2.2.2.2.2.2.2.1 kqueue.sample _ _ _ _ _ rfl (List.length_replicate _ _)
      (List.length_replicate _ _) (List.length_replicate _ _) (List.length_replicate _ _)
      (List.length_replicate _ _),
   h.2.2.2.2.2.2.2.2.2.2.2 epoll.sample _ _ _ _ _ rfl (List.length_replicate _ _)
      (List.length_replicate _ _) (List.length_replicate _ _) (List.length_replicate _ _)
      (List.length_replicate _ _)⟩

/-! ## Timer value of `createTimer` -/

theorem timerValue_of_nonneg (d : Int) (hd : 0 ≤ d) :
    timerValue d = ⟨d / 1000000000, d % 1000000000⟩ := by
  unfold timerValue
  by_cases h : d ≥ 1000000000
  · simp only [h, if_true]
    rw [Int.tdiv_eq_ediv hd (by decide), Int.tmod_eq_emod hd (by decide)]
  · simp only [h, if_false]
    have h1 : d / 1000000000 = 0 := by omega
    have h2 : d % 1000000000 = d := by omega
    rw [h1, h2]

theorem epoll.createTimer_calls {H : Type} (c : LinuxUnix) (ep : epoll H) (d : Int)
    (k : CreateTimerKernel) :
    ∃ calls, (ep.createTimer c d k).2.syscalls = ep.syscalls ++ calls ∧
      (∀ fd flags spec err, Syscall.timerfd_settime fd flags spec err ∈ calls →
        flags = 0 ∧ spec = ⟨timerValue d, timerValue d⟩ ∧ err = k.settime) ∧
      (∀ fd, (k.boottime = .ok fd ∨ (∃ e, k.boottime = .errno e) ∧ k.monotonic = .ok fd) →
        Syscall.timerfd_settime fd 0 ⟨timerValue d, timerValue d⟩ k.settime ∈ calls) := by
  obtain ⟨b, m, s⟩ := k
  cases b <;> cases m <;> cases s <;>
    simp [epoll.createTimer, timerFdCreate, List.append_assoc]

/-- C12: for every duration `d ≥ 0`, every `timerfd_settime` call that `createTimer`
issues carries a `timerSpec` whose `ItValue` and `ItInterval` both are
`{Sec: d / 10^9, Nsec: d mod 10^9}`, so that `Sec*10^9 + Nsec = d`, `Sec ≥ 0` and
`0 ≤ Nsec < 10^9`; and the call is issued, on the descriptor obtained, whenever one of
the two `timerfd_create` attempts succeeds. -/
theorem createTimer_timespec {H : Type} (c : LinuxUnix) (ep : epoll H) (d : Int)
    (k : CreateTimerKernel) (hd : 0 ≤ d) :
    timerValue d = ⟨d / 1000000000, d % 1000000000⟩ ∧
    ∃ calls, (ep.createTimer c d k).2.syscalls = ep.syscalls ++ calls ∧
      (∀ fd flags spec err, Syscall.timerfd_settime fd flags spec err ∈ calls →
        spec.ItValue = ⟨d / 1000000000, d % 1000000000⟩ ∧ spec.ItInterval = spec.ItValue ∧
        spec.ItValue.Sec * 1000000000 + spec.ItValue.Nsec = d ∧ 0 ≤ spec.ItValue.Sec ∧
        0 ≤ spec.ItValue.Nsec ∧ spec.ItValue.Nsec < 1000000000) ∧
      (∀ fd, (k.boottime = .ok fd ∨ (∃ e, k.boottime = .errno e) ∧ k.monotonic = .ok fd) →
        Syscall.timerfd_settime fd 0
          ⟨⟨d / 1000000000, d % 1000000000⟩, ⟨d / 1000000000, d % 1000000000⟩⟩ k.settime ∈
            calls) := by
  have hv := timerValue_of_nonneg d hd
  obtain ⟨calls, h1, h2, h3⟩ := epoll.createTimer_calls c ep d k
  refine ⟨hv, calls, h1, ?_, ?_⟩
  · intro fd flags spec err hmem
    obtain ⟨-, rfl, -⟩ := h2 fd flags spec err hmem
    rw [hv]
    refine ⟨rfl, rfl, ?_, ?_, ?_, ?_⟩
    · show d / 1000000000 * 1000000000 + d % 1000000000 = d
      omega
    · show 0 ≤ d / 1000000000
      omega
    · show 0 ≤ d % 1000000000
      omega
    · show d % 1000000000 < 1000000000
      omega
  · intro fd hfd
    have := h3 fd hfd
    rw [hv] at this
    exact this

/-- Witness for C12: `d` = 2.5 s on the sample backend, `timerfd_create` returning 6:
the call `timerfd_settime(6, 0, {2 s, 500000000 ns} twice)` is in the trace. -/
theorem createTimer_timespec_witness :
    (0 : Int) ≤ 2500000000 ∧
    timerValue 2500000000 = ⟨2, 500000000⟩ ∧
    Syscall.timerfd_settime 6 0 ⟨⟨2, 500000000⟩, ⟨2, 500000000⟩⟩ none ∈
      (epoll.sample.createTimer linuxUnix 2500000000 (epoll.createOk 6)).2.syscalls :=
  have h := createTimer_timespec linuxUnix epoll.sample 2500000000 (epoll.createOk 6)
    (by decide)
  ⟨by decide, h.1,
   h.2.elim (fun _ h1 => by
    rw [h1.1]
    exact List.mem_append_right _ (h1.2.2 6 (Or.inl rfl)))⟩

end Realtime
